import Mathlib

/-!
Verification of the forecasting core of the FlightForecaster repository.

The development shallowly embeds the two forecasting entry points
(`advanced_flight_forecast` in `src/advanced_forecasting.py` and
`simple_flight_forecast` in `src/forecasting.py`) together with their
helpers (`create_features`, `train_test_split_time`).

Modelling conventions:
* pandas Timestamps are epoch day numbers (`ℤ`); one day = 1.
* numeric cells are `ℚ`; a pandas NaN produced by `shift` is `Option.none`.
* Python `round` is round-half-to-even (`pythonRound`).
* IEEE-754 double arithmetic, which the time splitter uses through
  `int(n * (1 - test_size))`, is modelled exactly: `roundFloat` rounds a
  rational to the nearest binary64 value (round to nearest, ties to even;
  overflow and subnormals are irrelevant at the magnitudes that occur here).
* fallible pandas/sklearn operations return `Except PyError`.
-/

/-- Python exceptions that the forecasting code can raise. -/
inductive PyError where
  | valueError (msg : String)
  | keyError (key : String)
  | attributeError (msg : String)
deriving DecidableEq

/-- The Python built-in `round`: round half to even (banker rounding). -/
def pythonRound (q : ℚ) : ℤ :=
  let f := ⌊q⌋
  let r := q - (f : ℚ)
  if r < 1/2 then f
  else if 1/2 < r then f + 1
  else if f % 2 = 0 then f else f + 1

/-- The Python `int()` conversion of a float: truncation toward zero. -/
def pyTrunc (q : ℚ) : ℤ :=
  if 0 ≤ q then ⌊q⌋ else ⌈q⌉

/-- Floor of the base-2 logarithm of a natural number, by fuelled
structural recursion (so the kernel can evaluate it; any fuel of at least
the argument is enough). -/
def log2Fuel : ℕ → ℕ → ℕ
  | 0, _ => 0
  | f + 1, n => if 2 ≤ n then log2Fuel f (n / 2) + 1 else 0

/-- Ceiling of the base-2 logarithm of a natural number, by fuelled
structural recursion. -/
def clog2Fuel : ℕ → ℕ → ℕ
  | 0, _ => 0
  | f + 1, n => if n ≤ 1 then 0 else clog2Fuel f ((n + 1) / 2) + 1

/-- The binary exponent of a positive rational: the greatest `e` with
`2^e ≤ q`.  For `q ≥ 1` it is the floor log of `⌊q⌋`; for `q < 1` it is
minus the ceiling log of `⌈1/q⌉`. -/
def ratLog2 (q : ℚ) : ℤ :=
  if 1 ≤ q then
    (log2Fuel (q.num.toNat / q.den) (q.num.toNat / q.den) : ℤ)
  else
    -(clog2Fuel ((q.den + q.num.toNat - 1) / q.num.toNat)
        ((q.den + q.num.toNat - 1) / q.num.toNat) : ℤ)

/-- Round a rational to the nearest IEEE-754 binary64 value
(53-bit significand, round to nearest, ties to even).  Magnitudes in this
development never overflow or reach the subnormal range, so neither is
modelled. -/
def roundFloat (q : ℚ) : ℚ :=
  if q = 0 then 0
  else
    (if q < 0 then -1 else 1) *
      ((pythonRound (|q| * (2 : ℚ) ^ (52 - ratLog2 |q|)) : ℤ) : ℚ) *
      (2 : ℚ) ^ (ratLog2 |q| - 52)

/-- IEEE double subtraction of two exactly-held values. -/
def fsub (a b : ℚ) : ℚ := roundFloat (a - b)

/-- IEEE double multiplication of two exactly-held values. -/
def fmul (a b : ℚ) : ℚ := roundFloat (a * b)

/-- The binary64 value of the Python literal `0.2`. -/
def pyFloat02 : ℚ := roundFloat (1/5)

/-! ## Calendar arithmetic

pandas datetime accessors (`dt.dayofweek`, `dt.month`, ...) are pure
functions of the date; we compute them from the epoch day number with the
standard civil-from-days conversion. -/

/-- Convert an epoch day number to a civil `(year, month, day)` triple. -/
def civilFromDays (z : ℤ) : ℤ × ℤ × ℤ :=
  let zs := z + 719468
  let era := zs.ediv 146097
  let doe := zs - era * 146097
  let yoe := (doe - doe.ediv 1460 + doe.ediv 36524 - doe.ediv 146096).ediv 365
  let y := yoe + era * 400
  let doy := doe - (365 * yoe + yoe.ediv 4 - yoe.ediv 100)
  let mp := (5 * doy + 2).ediv 153
  let d := doy - (153 * mp + 2).ediv 5 + 1
  let m := mp + (if mp < 10 then 3 else -9)
  (y + (if m ≤ 2 then 1 else 0), m, d)

/-- Convert a civil `(year, month, day)` date to its epoch day number. -/
def daysFromCivil (y m d : ℤ) : ℤ :=
  let y2 := y - (if m ≤ 2 then 1 else 0)
  let era := y2.ediv 400
  let yoe := y2 - era * 400
  let doy := (153 * (m + (if 2 < m then -3 else 9)) + 2).ediv 5 + d - 1
  let doe := yoe * 365 + yoe.ediv 4 - yoe.ediv 100 + doy
  era * 146097 + doe - 719468

/-- pandas `dt.dayofweek`: Monday = 0.  Epoch day 0 (1970-01-01) is a
Thursday. -/
def pdDayofweek (z : ℤ) : ℤ := (z + 3).emod 7

/-- pandas `dt.dayofyear`: 1-based ordinal day within the year. -/
def pdDayofyear (z : ℤ) : ℤ :=
  z - daysFromCivil (civilFromDays z).1 1 1 + 1

/-- pandas `dt.isocalendar().week`: ISO-8601 week number, computed as the
week (counted from the first Thursday of the year) that holds the
Thursday of the week of `z`. -/
def pdWeekofyear (z : ℤ) : ℤ :=
  let wd := (z + 3).emod 7
  let thursday := z + (3 - wd)
  let y := (civilFromDays thursday).1
  (thursday - daysFromCivil y 1 1).ediv 7 + 1

/-- The calendar feature columns that `create_features` derives from the
date column. -/
structure Cal where
  dayofweek : ℤ
  month : ℤ
  year : ℤ
  dayofyear : ℤ
  dayofmonth : ℤ
  weekofyear : ℤ
deriving DecidableEq

/-- All six calendar features of one date. -/
def calOf (z : ℤ) : Cal :=
  let c := civilFromDays z
  { dayofweek := pdDayofweek z
    month := c.2.1
    year := c.1
    dayofyear := pdDayofyear z
    dayofmonth := c.2.2
    weekofyear := pdWeekofyear z }


/-! ## Data model -/

/-- One record of a daily-count series: a date column plus the `count`
column, as handed to the forecasters. -/
structure SeriesRow where
  date : ℤ
  count : ℤ
deriving DecidableEq

/-- Stable insertion used by `sortByDate`. -/
def insertByDate {α : Type} (key : α → ℤ) (x : α) : List α → List α
  | [] => [x]
  | y :: ys => if key y < key x then y :: insertByDate key x ys else x :: y :: ys

/-- `df.sort_values(by=date_column)`: sort rows by their date key. -/
def sortByDate {α : Type} (key : α → ℤ) : List α → List α
  | [] => []
  | x :: xs => insertByDate key x (sortByDate key xs)

/-- `series.max()` on a numeric column (callers only use it on non-empty
columns; on an empty column pandas returns NaN, which never reaches a
claim here). -/
def colMax : List ℤ → ℤ
  | [] => 0
  | x :: xs => xs.foldl max x

/-- `series.min()` on a numeric column (same remark as `colMax`). -/
def colMin : List ℤ → ℤ
  | [] => 0
  | x :: xs => xs.foldl min x

/-- A row of the feature frame produced by `create_features`.
`count` is `none` when the frame has no `count` column (the future frame);
`lag1`/`lag7` are `none` when the cell is NaN (the leading rows after
`shift`). -/
structure FeatRow where
  date : ℤ
  count : Option ℤ
  cal : Cal
  lag1 : Option ℤ
  lag7 : Option ℤ
deriving DecidableEq

/-- A feature frame: its rows plus whether the `lag_1`/`lag_7` columns
exist at all (they are added only when the frame has more than 7 rows). -/
structure FeatFrame where
  rows : List FeatRow
  hasLags : Bool
deriving DecidableEq

/-- One row of the feature frame built by `create_features` when the
frame has a `count` column: the `shift(1)`/`shift(7)` cells are NaN for
the leading rows, and the lag columns exist only when the frame has more
than 7 rows. -/
def cfRow (dates cs : List ℤ) (i : ℕ) : FeatRow :=
  { date := dates.getD i 0
    count := cs.get? i
    cal := calOf (dates.getD i 0)
    lag1 := if 7 < dates.length ∧ 1 ≤ i then cs.get? (i - 1) else none
    lag7 := if 7 < dates.length ∧ 7 ≤ i then cs.get? (i - 7) else none }

/-- One row of the feature frame built by `create_features` on a frame
without a `count` column (reachable only when that frame has at most 7
rows). -/
def cfRowNoCount (dates : List ℤ) (i : ℕ) : FeatRow :=
  { date := dates.getD i 0
    count := none
    cal := calOf (dates.getD i 0)
    lag1 := none
    lag7 := none }

/-- `create_features(df, date_column)` (src/advanced_forecasting.py:10-27).
`dates` is the date column; `counts?` is the `count` column when the frame
has one.  Calendar features are always derived; when the frame has more
than 7 rows the code evaluates `shift(1)` and `shift(7)` of the
`count` column, which raises `KeyError` on a frame without a
`count` column (the future frame built from dates alone). -/
def create_features (dates : List ℤ) (counts? : Option (List ℤ)) :
    Except PyError FeatFrame :=
  let n := dates.length
  match counts? with
  | some cs =>
      .ok { rows := (List.range n).map (cfRow dates cs)
            hasLags := decide (7 < n) }
  | none =>
      if 7 < n then .error (.keyError ("count"))
      else
        .ok { rows := (List.range n).map (cfRowNoCount dates)
              hasLags := false }

/-- `df.dropna()` on a feature frame: drops rows holding a NaN.  NaN cells
occur only in the lag columns, and only when those columns exist; the
`count` field being `none` means the column is absent, which `dropna`
ignores. -/
def dropna (f : FeatFrame) : List FeatRow :=
  if f.hasLags then f.rows.filter (fun r => r.lag1.isSome && r.lag7.isSome)
  else f.rows

/-- `train_test_split_time(df, test_size)`
(src/advanced_forecasting.py:29-40).  The split point is the Python
expression `int(n * (1 - test_size))`, evaluated in IEEE double
arithmetic and truncated toward zero. -/
def train_test_split_time {α : Type} (key : α → ℤ) (rows : List α)
    (test_size : ℚ) : List α × List α :=
  let sorted := sortByDate key rows
  let n := sorted.length
  let ti := pyTrunc (fmul (roundFloat (n : ℚ)) (fsub 1 test_size))
  (sorted.take ti.toNat, sorted.drop ti.toNat)

/-- The numeric vector a feature row contributes to a design matrix, for
the given feature-column set (calendar columns, plus the lag columns when
`withLags`).  Lag cells are NaN-free at every call site that reaches a
model: training and test rows come from `dropna`. -/
def rowVector (withLags : Bool) (r : FeatRow) : List ℚ :=
  [(r.cal.dayofweek : ℚ), (r.cal.month : ℚ), (r.cal.year : ℚ),
   (r.cal.dayofyear : ℚ), (r.cal.dayofmonth : ℚ), (r.cal.weekofyear : ℚ)]
  ++ (if withLags then [((r.lag1.getD 0 : ℤ) : ℚ), ((r.lag7.getD 0 : ℤ) : ℚ)]
      else [])

/-- `frame[feature_cols]`: column selection.  Selecting the lag columns
from a frame that does not have them (`future_df` when the horizon is at
most 7 days) raises `KeyError`. -/
def selectCols (withLags : Bool) (frameHasLags : Bool) (rows : List FeatRow) :
    Except PyError (List (List ℚ)) :=
  if withLags && !frameHasLags then
    .error (.keyError ("lag_1 and lag_7 not in index"))
  else .ok (rows.map (rowVector withLags))

/-- sklearn `model.fit(X, y)`: input validation rejects an empty design
matrix (`check_array` requires at least one sample); otherwise the fitted
model is whatever the supplied fitting procedure returns.  The numeric
fitting itself (least squares / random forest) is kept abstract: every
theorem below holds for arbitrary fitted regression functions. -/
def sk_fit (fitf : List (List ℚ) → List ℚ → (List ℚ → ℚ))
    (X : List (List ℚ)) (y : List ℚ) : Except PyError (List ℚ → ℚ) :=
  if X.isEmpty then .error (.valueError ("Found array with 0 samples"))
  else .ok (fitf X y)

/-- sklearn `model.predict(X)`: the same minimum-one-sample validation,
then row-wise application of the fitted model. -/
def sk_predict (model : List ℚ → ℚ) (X : List (List ℚ)) :
    Except PyError (List ℚ) :=
  if X.isEmpty then .error (.valueError ("Found array with 0 samples"))
  else .ok (X.map model)

/-- Per-model evaluation record (src/advanced_forecasting.py:97-111).
The source reports `rmse = sqrt(mse)`; the square root leaves `ℚ`, so the
record carries `mse` itself.  `r2 = 1 - ss_res/ss_tot`; no claim reads
these numbers. -/
structure ModelMetrics where
  mae : ℚ
  mse : ℚ
  r2 : ℚ
deriving DecidableEq

/-- Compute MAE, MSE and R² of predictions against the test target. -/
def evalMetrics (y yhat : List ℚ) : ModelMetrics :=
  let errs := (y.zip yhat).map (fun p => p.1 - p.2)
  let n : ℚ := (y.length : ℚ)
  let mean := y.sum / n
  let ssRes := (errs.map (fun e => e ^ 2)).sum
  let ssTot := (y.map (fun a => (a - mean) ^ 2)).sum
  { mae := (errs.map (fun e => |e|)).sum / n
    mse := ssRes / n
    r2 := 1 - ssRes / ssTot }

/-- The metrics dictionary returned by the advanced forecaster. -/
structure AdvMetrics where
  linear : ModelMetrics
  rf : ModelMetrics
deriving DecidableEq

/-- Lines 163-173 of src/advanced_forecasting.py: choose or average the
two per-model predictions according to `model_type` (any string other
than `linear` and `rf` selects the average ensemble), then round to an
integer and clamp at zero. -/
def combinePrediction (model_type : String) (lin rf : ℚ) : ℤ :=
  let p := if model_type = "linear" then lin
           else if model_type = "rf" then rf
           else (lin + rf) / 2
  max 0 (pythonRound p)

/-- Lines 124-154 of src/advanced_forecasting.py: seed the future lag
columns from the historical tail, then walk the horizon filling lags from
prior predictions.  Every loop iteration (`i ≥ 1`) reads
the `prediction` column of `future_df`, a column created only later (at
line 165), so the first iteration raises `KeyError`; the loop body is
reached at all only when the future frame has lag columns, i.e. never on
a successful `create_features` of the count-less future frame. -/
def fillFutureLags (histCounts : List ℤ) (rows : List FeatRow) :
    Except PyError (List FeatRow) :=
  let last_count := (histCounts.getLast?).getD 0
  let lag7_seed := if 7 ≤ histCounts.length
                   then histCounts.get? (histCounts.length - 7) else none
  let seeded := match rows with
    | [] => []
    | r :: rest =>
        { r with lag1 := some last_count,
                 lag7 := match lag7_seed with
                         | some s => some s
                         | none => r.lag7 } :: rest
  if rows.length ≤ 1 then .ok seeded
  else .error (.keyError ("prediction"))

/-- One row of the combined output series: date, count and the
historical/forecast provenance tag. -/
structure ResultRow where
  date : ℤ
  count : ℤ
  forecast : Bool
deriving DecidableEq

/-- The gate message of src/advanced_forecasting.py:66. -/
def gateMsg : String :=
  "Not enough data for forecasting. Need at least 10 data points."

/-- `advanced_flight_forecast(df, days_to_forecast, date_column,
model_type)` (src/advanced_forecasting.py:42-182), parameterised by the
two abstract fitting procedures standing for `LinearRegression` and
`RandomForestRegressor(n_estimators=100, random_state=42)`.

The `.dt` accessor applied to `future_df` raises `AttributeError` when
`days_to_forecast ≤ 0`: the empty literal list gives the date column
object dtype, and `.dt` demands a datetimelike column. -/
def advanced_flight_forecast
    (linfit rffit : List (List ℚ) → List ℚ → (List ℚ → ℚ))
    (df : List SeriesRow) (days_to_forecast : ℤ) (model_type : String) :
    Except PyError (List ResultRow × AdvMetrics) := do
  let dfs := sortByDate (fun r => r.date) df
  let dates := dfs.map (fun r => r.date)
  let counts := dfs.map (fun r => r.count)
  let feats ← create_features dates (some counts)
  let dfFeat := dropna feats
  if dfFeat.length < 10 then throw (.valueError gateMsg)
  let split := train_test_split_time (fun r => r.date) dfFeat pyFloat02
  let withLags := feats.hasLags
  let X_train ← selectCols withLags feats.hasLags split.1
  let y_train := split.1.map (fun r => ((r.count.getD 0 : ℤ) : ℚ))
  let linear_model ← sk_fit linfit X_train y_train
  let rf_model ← sk_fit rffit X_train y_train
  let X_test ← selectCols withLags feats.hasLags split.2
  let y_test := split.2.map (fun r => ((r.count.getD 0 : ℤ) : ℚ))
  let y_pred_linear ← sk_predict linear_model X_test
  let y_pred_rf ← sk_predict rf_model X_test
  let metrics : AdvMetrics :=
    { linear := evalMetrics y_test y_pred_linear
      rf := evalMetrics y_test y_pred_rf }
  let last_date := colMax dates
  let future_dates := (List.range days_to_forecast.toNat).map
    (fun (i : ℕ) => last_date + (i : ℤ) + 1)
  if future_dates.isEmpty then
    throw (.attributeError ("Can only use .dt accessor with datetimelike values"))
  let future ← create_features future_dates none
  let futureRows ← if future.hasLags then fillFutureLags counts future.rows
                   else pure future.rows
  let X_future ← selectCols withLags future.hasLags futureRows
  let lin_preds ← sk_predict linear_model X_future
  let rf_preds ← sk_predict rf_model X_future
  let preds := (lin_preds.zip rf_preds).map
    (fun p => combinePrediction model_type p.1 p.2)
  let histRows := dfs.map (fun r =>
    ({ date := r.date, count := r.count, forecast := false } : ResultRow))
  let futRows := (future_dates.zip preds).map (fun p =>
    ({ date := p.1, count := p.2, forecast := true } : ResultRow))
  return (histRows ++ futRows, metrics)

/-- One row of the combined output of the simple forecaster, which also
carries the `day_number` helper column it created. -/
structure SimpleRow where
  date : ℤ
  count : ℤ
  day_number : ℤ
  forecast : Bool
deriving DecidableEq

/-- The `day_number` column of the simple forecaster: days since the
first date of the (sorted) series (src/forecasting.py:49-50). -/
def simple_dayNumbers (df : List SeriesRow) : List ℤ :=
  let sorted := sortByDate (fun r => r.date) df
  let first := colMin (sorted.map (fun r => r.date))
  sorted.map (fun r => r.date - first)

/-- The design matrix the simple forecaster fits on: the single
`day_number` column (src/forecasting.py:53). -/
def simple_X (df : List SeriesRow) : List (List ℚ) :=
  (simple_dayNumbers df).map (fun (d : ℤ) => [(d : ℚ)])

/-- `simple_flight_forecast(df, days_to_forecast, date_column)`
(src/forecasting.py:33-83), parameterised by the abstract fitting
procedure standing for `LinearRegression`. -/
def simple_flight_forecast
    (linfit : List (List ℚ) → List ℚ → (List ℚ → ℚ))
    (df : List SeriesRow) (days_to_forecast : ℤ) :
    Except PyError (List SimpleRow) := do
  let sorted := sortByDate (fun r => r.date) df
  let first := colMin (sorted.map (fun r => r.date))
  let y := sorted.map (fun r => (r.count : ℚ))
  let model ← sk_fit linfit (simple_X df) y
  let last := colMax (sorted.map (fun r => r.date))
  let future_dates := (List.range days_to_forecast.toNat).map
    (fun (i : ℕ) => last + (i : ℤ) + 1)
  let future_day_numbers := future_dates.map (fun d => d - first)
  let raw ← sk_predict model (future_day_numbers.map (fun (d : ℤ) => [(d : ℚ)]))
  let futRows := (future_dates.zip raw).map (fun p =>
    ({ date := p.1, count := max 0 (pythonRound p.2),
       day_number := p.1 - first, forecast := true } : SimpleRow))
  let histRows := sorted.map (fun r =>
    ({ date := r.date, count := r.count, day_number := r.date - first,
       forecast := false } : SimpleRow))
  return histRows ++ futRows

/-! ## Spec-side definitions (for the refinement claim C8)

These two definitions follow the words of the specification, not the
source; they exist to be compared with the source-derived definitions. -/

/-- The section 4.1 calendar feature matrix the spec says the simple
variant fits on: one row per series record, the six calendar features of
its date. -/
def spec_section41_featureMatrix (df : List SeriesRow) : List (List ℚ) :=
  (sortByDate (fun r => r.date) df).map (fun r =>
    let c := calOf r.date
    [(c.dayofweek : ℚ), (c.month : ℚ), (c.year : ℚ),
     (c.dayofyear : ℚ), (c.dayofmonth : ℚ), (c.weekofyear : ℚ)])

/-- The forecast counts of the simple variant as the amended claim C8
describes them: a single model fitted on the lone `day_number` feature,
applied in one batch to the future day numbers, rounded and clamped —
each forecast value a function of the fitted model and the calendar
alone, never of a previously forecast value. -/
def spec_simpleForecastCounts
    (linfit : List (List ℚ) → List ℚ → (List ℚ → ℚ))
    (df : List SeriesRow) (days_to_forecast : ℤ) : List ℤ :=
  let sorted := sortByDate (fun r => r.date) df
  let first := colMin (sorted.map (fun r => r.date))
  let last := colMax (sorted.map (fun r => r.date))
  let model := linfit (simple_X df) (sorted.map (fun r => (r.count : ℚ)))
  (List.range days_to_forecast.toNat).map (fun (i : ℕ) =>
    max 0 (pythonRound (model [((last + (i : ℤ) + 1 - first : ℤ) : ℚ)])))

/-! ## Concrete inputs used by the claims -/

/-- A trivial fitted-model constructor (predicts 0 everywhere), used to
instantiate the abstract fitting parameters in closed statements. -/
def zeroFit : List (List ℚ) → List ℚ → (List ℚ → ℚ) :=
  fun _ _ => fun _ => 0

/-- A fitted-model constructor predicting -5 everywhere, exercising the
clamp at zero. -/
def negFit : List (List ℚ) → List ℚ → (List ℚ → ℚ) :=
  fun _ _ => fun _ => -5

/-- 18 consecutive daily records (2023-12-18 onward). -/
def series18 : List SeriesRow :=
  (List.range 18).map (fun (i : ℕ) => { date := 19709 + (i : ℤ), count := 20 + (i : ℤ) % 3 })

/-- The end-to-end scenario of claim C2: 30 consecutive days starting
2023-12-09, `count = 10 + day_index`. -/
def series30 : List SeriesRow :=
  (List.range 30).map (fun (i : ℕ) => { date := 19700 + (i : ℤ), count := 10 + (i : ℤ) })

/-- 18 consecutive daily records (2024-10-04 onward) for claim C3. -/
def c3series : List SeriesRow :=
  (List.range 18).map (fun (i : ℕ) => { date := 20000 + (i : ℤ), count := 7 + (i : ℤ) % 5 })

/-- Ten feature rows (a date-sorted feature-row sequence) for claim C6. -/
def c6featRows : List FeatRow :=
  ((create_features ((List.range 10).map (fun (i : ℕ) => 19800 + (i : ℤ)))
      (some ((List.range 10).map (fun (i : ℕ) => 4 + (i : ℤ))))).toOption.getD
    { rows := [], hasLags := false }).rows

/-- A three-row series with a one-day gap (dates 0, 1, 3) for claim C9. -/
def c9df : List SeriesRow := [⟨0, 1⟩, ⟨1, 1⟩, ⟨3, 1⟩]

/-- A three-row series of consecutive dates (2024-01-01..03) for C8. -/
def c8df : List SeriesRow := [⟨19723, 4⟩, ⟨19724, 5⟩, ⟨19725, 6⟩]


/-- The closed form of a successful run of the simple forecaster (used by
the theorems below): the sorted historical rows tagged `forecast = false`,
followed by one batch-predicted row per horizon day. -/
def simple_result_spec (linfit : List (List ℚ) → List ℚ → (List ℚ → ℚ))
    (df : List SeriesRow) (days_to_forecast : ℤ) : List SimpleRow :=
  let sorted := sortByDate (fun r : SeriesRow => r.date) df
  let first := colMin (sorted.map (fun r => r.date))
  let last := colMax (sorted.map (fun r => r.date))
  let model := linfit (simple_X df) (sorted.map (fun r => (r.count : ℚ)))
  sorted.map (fun r =>
    ({ date := r.date, count := r.count, day_number := r.date - first,
       forecast := false } : SimpleRow)) ++
  (List.range days_to_forecast.toNat).map (fun (i : ℕ) =>
    ({ date := last + (i : ℤ) + 1,
       count := max 0 (pythonRound (model [((last + (i : ℤ) + 1 - first : ℤ) : ℚ)])),
       day_number := last + (i : ℤ) + 1 - first, forecast := true } : SimpleRow))

/-! ## Helper lemmas: lists and sorting -/

theorem length_insertByDate {α : Type} (key : α → ℤ) (x : α) (l : List α) :
    (insertByDate key x l).length = l.length + 1 := by
  induction l with
  | nil => rfl
  | cons y ys ih =>
      simp only [insertByDate]
      split
      · simp [ih]
      · simp

theorem length_sortByDate {α : Type} (key : α → ℤ) (l : List α) :
    (sortByDate key l).length = l.length := by
  induction l with
  | nil => rfl
  | cons x xs ih => simp [sortByDate, length_insertByDate, ih]

theorem insertByDate_head_le {α : Type} (key : α → ℤ) (x : α) (l : List α)
    (h : ∀ y ∈ l.head?, key x ≤ key y) : insertByDate key x l = x :: l := by
  cases l with
  | nil => rfl
  | cons y ys =>
      have hy : key x ≤ key y := h y rfl
      simp only [insertByDate, if_neg (not_lt.mpr hy)]

theorem sortByDate_eq_self {α : Type} (key : α → ℤ) (l : List α)
    (h : l.Chain' (fun a b => key a ≤ key b)) : sortByDate key l = l := by
  induction l with
  | nil => rfl
  | cons x xs ih =>
      have hxs : xs.Chain' (fun a b => key a ≤ key b) := h.tail
      rw [sortByDate, ih hxs]
      apply insertByDate_head_le
      intro y hy
      cases xs with
      | nil => simp at hy
      | cons z zs =>
          simp only [List.head?] at hy
          cases hy
          exact (List.chain'_cons.mp h).1

theorem chain_colMax (l : List ℤ) (h : l.Chain' (· ≤ ·)) (hne : l ≠ []) :
    colMax l = l.getLast hne := by
  induction l with
  | nil => exact absurd rfl hne
  | cons x xs ih =>
      cases xs with
      | nil => simp [colMax]
      | cons y ys =>
          have hxy : x ≤ y := (List.chain'_cons.mp h).1
          have htl : (y :: ys).Chain' (· ≤ ·) := (List.chain'_cons.mp h).2
          have : colMax (x :: y :: ys) = colMax (y :: ys) := by
            simp [colMax, max_eq_right hxy]
          rw [this, ih htl (by simp)]
          simp [List.getLast]

/-! ## Helper lemmas: rounding -/

theorem pythonRound_def (q : ℚ) :
    pythonRound q =
      if q - (⌊q⌋ : ℚ) < 1/2 then ⌊q⌋
      else if 1/2 < q - (⌊q⌋ : ℚ) then ⌊q⌋ + 1
      else if ⌊q⌋ % 2 = 0 then ⌊q⌋ else ⌊q⌋ + 1 := rfl

theorem pythonRound_le (q : ℚ) : |((pythonRound q : ℤ) : ℚ) - q| ≤ 1/2 := by
  have h0 : (0 : ℚ) ≤ q - (⌊q⌋ : ℚ) := by
    have := Int.floor_le q
    linarith
  have h1 : q - (⌊q⌋ : ℚ) < 1 := by
    have := Int.lt_floor_add_one q
    linarith
  rw [pythonRound_def]
  split_ifs with hr hr2 hev
  · rw [abs_sub_comm, abs_of_nonneg h0]
    linarith
  · push_cast
    rw [abs_of_nonneg (by linarith)]
    linarith
  · push_neg at hr hr2
    have heq : q - (⌊q⌋ : ℚ) = 1/2 := le_antisymm hr2 hr
    rw [abs_sub_comm, abs_of_nonneg h0, heq]
  · push_neg at hr hr2
    have heq : q - (⌊q⌋ : ℚ) = 1/2 := le_antisymm hr2 hr
    push_cast
    rw [abs_of_nonneg (by linarith)]
    linarith

theorem le_pythonRound_of_int (q : ℚ) (K : ℤ) (hK : (K : ℚ) ≤ q) :
    K ≤ pythonRound q := by
  have hb := pythonRound_le q
  rw [abs_le] at hb
  have hlt : ((K : ℤ) - 1 : ℤ) < ((pythonRound q : ℤ) : ℤ) := by
    have : ((K : ℚ)) - 1 < ((pythonRound q : ℤ) : ℚ) := by linarith [hb.1]
    exact_mod_cast this
  omega

theorem pythonRound_le_of_int (q : ℚ) (K : ℤ) (hK : q ≤ (K : ℚ)) :
    pythonRound q ≤ K := by
  have hb := pythonRound_le q
  rw [abs_le] at hb
  have hlt : ((pythonRound q : ℤ) : ℤ) < K + 1 := by
    have : ((pythonRound q : ℤ) : ℚ) < (K : ℚ) + 1 := by linarith [hb.2]
    exact_mod_cast this
  omega

theorem pythonRound_intCast (k : ℤ) : pythonRound (k : ℚ) = k :=
  le_antisymm (pythonRound_le_of_int _ _ le_rfl) (le_pythonRound_of_int _ _ le_rfl)

theorem pythonRound_nonneg (q : ℚ) (h : 0 ≤ q) : 0 ≤ pythonRound q :=
  le_pythonRound_of_int q 0 (by exact_mod_cast h)

theorem pythonRound_nonpos (q : ℚ) (h : q ≤ 0) : pythonRound q ≤ 0 :=
  pythonRound_le_of_int q 0 (by exact_mod_cast h)

theorem max_zero_pythonRound (q : ℚ) :
    max 0 (pythonRound q) = pythonRound (max 0 q) := by
  rcases le_total 0 q with h | h
  · rw [max_eq_right h, max_eq_right (pythonRound_nonneg q h)]
  · rw [max_eq_left h, max_eq_left (pythonRound_nonpos q h)]
    exact (pythonRound_intCast 0).symm

theorem pow_log2Fuel_le (f : ℕ) : ∀ n, 1 ≤ n → n ≤ f → 2 ^ log2Fuel f n ≤ n := by
  induction f with
  | zero => intro n h1 hf; omega
  | succ f ih =>
      intro n h1 hf
      rw [log2Fuel]
      split
      · rename_i h2
        have hm1 : 1 ≤ n / 2 := by omega
        have hmf : n / 2 ≤ f := by omega
        have hrec := ih (n / 2) hm1 hmf
        have hpow : 2 ^ (log2Fuel f (n / 2) + 1) = 2 * 2 ^ log2Fuel f (n / 2) := by ring
        omega
      · simpa using h1

theorem le_pow_clog2Fuel (f : ℕ) : ∀ n, n ≤ f → n ≤ 2 ^ clog2Fuel f n := by
  induction f with
  | zero =>
      intro n hf
      simp only [clog2Fuel, pow_zero]
      omega
  | succ f ih =>
      intro n hf
      rw [clog2Fuel]
      split
      · rename_i h1
        simpa using h1
      · rename_i h1
        push_neg at h1
        have hmf : (n + 1) / 2 ≤ f := by omega
        have hrec := ih ((n + 1) / 2) hmf
        have hpow : 2 ^ (clog2Fuel f ((n + 1) / 2) + 1) =
            2 * 2 ^ clog2Fuel f ((n + 1) / 2) := by ring
        omega

theorem ratLog2_self_le (q : ℚ) (hq : 0 < q) : (2 : ℚ) ^ ratLog2 q ≤ q := by
  have hnum : 0 < q.num := Rat.num_pos.mpr hq
  have hden : 0 < q.den := q.den_pos
  have hdenQ : (0 : ℚ) < (q.den : ℚ) := by exact_mod_cast hden
  have hqeq : ((q.num : ℚ)) / ((q.den : ℚ)) = q := Rat.num_div_den q
  have hnumQ : ((q.num.toNat : ℤ) : ℚ) = ((q.num : ℤ) : ℚ) := by
    rw [Int.toNat_of_nonneg hnum.le]
  by_cases h1 : 1 ≤ q
  · rw [ratLog2, if_pos h1]
    set fl := q.num.toNat / q.den with hfl
    have hle : q.den ≤ q.num.toNat := by
      have : (1 : ℚ) * (q.den : ℚ) ≤ (q.num : ℚ) := by
        rw [one_mul]
        have := (le_div_iff₀ hdenQ).mp (hqeq ▸ h1)
        linarith [this]
      have hZ : (q.den : ℤ) ≤ q.num := by
        have := this
        rw [one_mul] at this
        exact_mod_cast this
      omega
    have hfl1 : 1 ≤ fl := by
      rw [hfl]
      exact (Nat.one_le_div_iff hden).mpr hle
    have hb : 2 ^ log2Fuel fl fl ≤ fl := pow_log2Fuel_le fl fl hfl1 le_rfl
    have hflq : ((fl : ℕ) : ℚ) ≤ q := by
      have hmul : fl * q.den ≤ q.num.toNat := Nat.div_mul_le_self _ _
      have hQ : ((fl : ℕ) : ℚ) * (q.den : ℚ) ≤ (q.num : ℚ) := by
        rw [← hnumQ]
        exact_mod_cast hmul
      rw [← hqeq]
      rw [le_div_iff₀ hdenQ]
      exact hQ
    calc (2 : ℚ) ^ ((log2Fuel fl fl : ℕ) : ℤ) = ((2 ^ log2Fuel fl fl : ℕ) : ℚ) := by
          rw [zpow_natCast]
          push_cast
          rfl
      _ ≤ ((fl : ℕ) : ℚ) := by exact_mod_cast hb
      _ ≤ q := hflq
  · rw [ratLog2, if_neg h1]
    set a := q.num.toNat with ha
    set b := q.den with hb
    have ha1 : 1 ≤ a := by
      rw [ha]
      omega
    set cdiv := (b + a - 1) / a with hcdiv
    set k := clog2Fuel cdiv cdiv with hk
    have hck : cdiv ≤ 2 ^ k := le_pow_clog2Fuel cdiv cdiv le_rfl
    have hbac : b ≤ a * cdiv := by
      have hdm := Nat.div_add_mod (b + a - 1) a
      have hml : (b + a - 1) % a < a := Nat.mod_lt _ (by omega)
      rw [hcdiv]
      omega
    have hbk : b ≤ a * 2 ^ k := le_trans hbac (Nat.mul_le_mul_left a hck)
    have haQ : ((a : ℕ) : ℚ) = (q.num : ℚ) := by
      rw [ha]
      exact_mod_cast hnumQ
    have hgoal : 1 / (2 : ℚ) ^ (k : ℕ) ≤ q := by
      rw [← hqeq, ← haQ]
      rw [div_le_div_iff₀ (by positivity) hdenQ]
      have : ((b : ℕ) : ℚ) ≤ ((a * 2 ^ k : ℕ) : ℚ) := by exact_mod_cast hbk
      push_cast at this ⊢
      linarith
    calc (2 : ℚ) ^ (-((k : ℕ) : ℤ)) = 1 / (2 : ℚ) ^ (k : ℕ) := by
          rw [zpow_neg, zpow_natCast, one_div]
      _ ≤ q := hgoal

theorem roundFloat_pos_def (q : ℚ) (hq : 0 < q) :
    roundFloat q =
      ((pythonRound (q * (2 : ℚ) ^ (52 - ratLog2 q)) : ℤ) : ℚ) *
        (2 : ℚ) ^ (ratLog2 q - 52) := by
  rw [roundFloat, if_neg (ne_of_gt hq), if_neg (not_lt.mpr hq.le),
    abs_of_pos hq, one_mul]

theorem roundFloat_close (q : ℚ) (hq : 0 < q) :
    |roundFloat q - q| ≤ (2 : ℚ) ^ (ratLog2 q - 53) := by
  rw [roundFloat_pos_def q hq]
  set e := ratLog2 q with he
  have h2 : (0 : ℚ) < (2 : ℚ) ^ (e - 52) := zpow_pos (by norm_num) _
  have hqm : q * (2 : ℚ) ^ (52 - e) * (2 : ℚ) ^ (e - 52) = q := by
    rw [mul_assoc, ← zpow_add₀ (two_ne_zero), show (52 - e) + (e - 52) = 0 by ring,
      zpow_zero, mul_one]
  set M : ℚ := ((pythonRound (q * (2 : ℚ) ^ (52 - e)) : ℤ) : ℚ) with hM
  have key : |M - q * (2 : ℚ) ^ (52 - e)| * (2 : ℚ) ^ (e - 52) =
      |M * (2 : ℚ) ^ (e - 52) - q| := by
    rw [show |M - q * (2 : ℚ) ^ (52 - e)| * (2 : ℚ) ^ (e - 52) =
          |M - q * (2 : ℚ) ^ (52 - e)| * |(2 : ℚ) ^ (e - 52)| by
        rw [abs_of_pos h2],
      ← abs_mul, sub_mul, hqm]
  rw [← key]
  have hb := pythonRound_le (q * (2 : ℚ) ^ (52 - e))
  rw [← hM] at hb
  calc |M - q * (2 : ℚ) ^ (52 - e)| * (2 : ℚ) ^ (e - 52)
      ≤ (1 / 2) * (2 : ℚ) ^ (e - 52) := mul_le_mul_of_nonneg_right hb h2.le
    _ = (2 : ℚ) ^ (e - 53) := by
        rw [show (1 : ℚ) / 2 = (2 : ℚ) ^ (-1 : ℤ) by norm_num,
          ← zpow_add₀ (two_ne_zero : (2 : ℚ) ≠ 0)]
        congr 1
        ring

theorem int_le_roundFloat (q : ℚ) (K : ℤ) (hq : 0 < q)
    (he : ratLog2 q ≤ 52) (hK : (K : ℚ) ≤ q) : (K : ℚ) ≤ roundFloat q := by
  rw [roundFloat_pos_def q hq]
  set e := ratLog2 q with hedef
  have hnn : (0 : ℤ) ≤ 52 - e := by omega
  obtain ⟨s, hs⟩ : ∃ s : ℕ, 52 - e = (s : ℤ) :=
    ⟨(52 - e).toNat, (Int.toNat_of_nonneg hnn).symm⟩
  have hKg : ((K * 2 ^ s : ℤ) : ℚ) ≤ q * (2 : ℚ) ^ (52 - e) := by
    rw [hs]
    push_cast
    rw [zpow_natCast]
    exact mul_le_mul_of_nonneg_right hK (by positivity)
  have h1 : K * 2 ^ s ≤ pythonRound (q * (2 : ℚ) ^ (52 - e)) :=
    le_pythonRound_of_int _ _ hKg
  have h2 : ((K * 2 ^ s : ℤ) : ℚ) * (2 : ℚ) ^ (e - 52) = (K : ℚ) := by
    push_cast
    rw [← zpow_natCast (2 : ℚ) s, ← hs, mul_assoc, ← zpow_add₀ (two_ne_zero),
      show (52 - e) + (e - 52) = 0 by ring, zpow_zero, mul_one]
  calc (K : ℚ) = ((K * 2 ^ s : ℤ) : ℚ) * (2 : ℚ) ^ (e - 52) := h2.symm
    _ ≤ ((pythonRound (q * (2 : ℚ) ^ (52 - e)) : ℤ) : ℚ) * (2 : ℚ) ^ (e - 52) := by
        apply mul_le_mul_of_nonneg_right _ (by positivity)
        exact_mod_cast h1

theorem roundFloat_le_int (q : ℚ) (K : ℤ) (hq : 0 < q)
    (he : ratLog2 q ≤ 52) (hK : q ≤ (K : ℚ)) : roundFloat q ≤ (K : ℚ) := by
  rw [roundFloat_pos_def q hq]
  set e := ratLog2 q with hedef
  have hnn : (0 : ℤ) ≤ 52 - e := by omega
  obtain ⟨s, hs⟩ : ∃ s : ℕ, 52 - e = (s : ℤ) :=
    ⟨(52 - e).toNat, (Int.toNat_of_nonneg hnn).symm⟩
  have hKg : q * (2 : ℚ) ^ (52 - e) ≤ ((K * 2 ^ s : ℤ) : ℚ) := by
    rw [hs]
    push_cast
    rw [zpow_natCast]
    exact mul_le_mul_of_nonneg_right hK (by positivity)
  have h1 : pythonRound (q * (2 : ℚ) ^ (52 - e)) ≤ K * 2 ^ s :=
    pythonRound_le_of_int _ _ hKg
  have h2 : ((K * 2 ^ s : ℤ) : ℚ) * (2 : ℚ) ^ (e - 52) = (K : ℚ) := by
    push_cast
    rw [← zpow_natCast (2 : ℚ) s, ← hs, mul_assoc, ← zpow_add₀ (two_ne_zero),
      show (52 - e) + (e - 52) = 0 by ring, zpow_zero, mul_one]
  calc ((pythonRound (q * (2 : ℚ) ^ (52 - e)) : ℤ) : ℚ) * (2 : ℚ) ^ (e - 52)
      ≤ ((K * 2 ^ s : ℤ) : ℚ) * (2 : ℚ) ^ (e - 52) := by
        apply mul_le_mul_of_nonneg_right _ (by positivity)
        exact_mod_cast h1
    _ = (K : ℚ) := h2

theorem log2Fuel_max (f : ℕ) : ∀ n j, 1 ≤ n → n ≤ f → 2 ^ j ≤ n →
    j ≤ log2Fuel f n := by
  induction f with
  | zero => intro n j h1 hf _; omega
  | succ f ih =>
      intro n j h1 hf hj
      rw [log2Fuel]
      split
      · rename_i h2
        cases j with
        | zero => omega
        | succ j =>
            have hj2 : 2 ^ j ≤ n / 2 := by
              have : 2 ^ (j + 1) = 2 * 2 ^ j := by ring
              omega
            have := ih (n / 2) j (by omega) (by omega) hj2
            omega
      · rename_i h2
        push_neg at h2
        cases j with
        | zero => omega
        | succ j =>
            have : 2 ^ (j + 1) = 2 * 2 ^ j := by ring
            have h1j : 1 ≤ 2 ^ j := Nat.one_le_two_pow
            omega

theorem clog2Fuel_min (f : ℕ) : ∀ n j, n ≤ f → n ≤ 2 ^ j →
    clog2Fuel f n ≤ j := by
  induction f with
  | zero => intro n j _ _; simp [clog2Fuel]
  | succ f ih =>
      intro n j hf hj
      rw [clog2Fuel]
      split
      · omega
      · rename_i h1
        push_neg at h1
        cases j with
        | zero => omega
        | succ j =>
            have hpow : 2 ^ (j + 1) = 2 * 2 ^ j := by ring
            have hj2 : (n + 1) / 2 ≤ 2 ^ j := by omega
            have := ih ((n + 1) / 2) j (by omega) hj2
            omega

theorem lt_ratLog2_succ (q : ℚ) (hq : 0 < q) : q < (2 : ℚ) ^ (ratLog2 q + 1) := by
  have hnum : 0 < q.num := Rat.num_pos.mpr hq
  have hden : 0 < q.den := q.den_pos
  have hdenQ : (0 : ℚ) < (q.den : ℚ) := by exact_mod_cast hden
  have hqeq : ((q.num : ℚ)) / ((q.den : ℚ)) = q := Rat.num_div_den q
  have hnumQ : ((q.num.toNat : ℤ) : ℚ) = ((q.num : ℤ) : ℚ) := by
    rw [Int.toNat_of_nonneg hnum.le]
  by_cases h1 : 1 ≤ q
  · rw [ratLog2, if_pos h1]
    set fl := q.num.toNat / q.den with hfl
    have hle : q.den ≤ q.num.toNat := by
      have hh : (1 : ℚ) * (q.den : ℚ) ≤ (q.num : ℚ) := by
        rw [one_mul]
        have := (le_div_iff₀ hdenQ).mp (hqeq ▸ h1)
        linarith [this]
      have hZ : (q.den : ℤ) ≤ q.num := by
        rw [one_mul] at hh
        exact_mod_cast hh
      omega
    have hfl1 : 1 ≤ fl := by
      rw [hfl]
      exact (Nat.one_le_div_iff hden).mpr hle
    have hflup : q < ((fl : ℕ) : ℚ) + 1 := by
      have hdm := Nat.div_add_mod q.num.toNat q.den
      have hml : q.num.toNat % q.den < q.den := Nat.mod_lt _ hden
      have hnatlt : q.num.toNat < (fl + 1) * q.den := by
        have hexp : (fl + 1) * q.den = q.den * (q.num.toNat / q.den) + q.den := by
          rw [hfl]
          ring
        rw [hexp]
        omega
      have hQlt : (q.num : ℚ) < (((fl + 1) * q.den : ℕ) : ℚ) := by
        rw [← hnumQ]
        exact_mod_cast hnatlt
      rw [← hqeq, div_lt_iff₀ hdenQ]
      push_cast at hQlt ⊢
      linarith
    have hbound : fl < 2 ^ (log2Fuel fl fl + 1) := by
      by_contra hcon
      push_neg at hcon
      have := log2Fuel_max fl fl (log2Fuel fl fl + 1) hfl1 le_rfl hcon
      omega
    calc q < ((fl : ℕ) : ℚ) + 1 := hflup
      _ ≤ ((2 ^ (log2Fuel fl fl + 1) : ℕ) : ℚ) := by
          have : fl + 1 ≤ 2 ^ (log2Fuel fl fl + 1) := hbound
          exact_mod_cast this
      _ = (2 : ℚ) ^ (((log2Fuel fl fl : ℕ) : ℤ) + 1) := by
          rw [show (((log2Fuel fl fl : ℕ) : ℤ) + 1) = (((log2Fuel fl fl + 1 : ℕ)) : ℤ) by
            push_cast; ring]
          rw [zpow_natCast]
          push_cast
          rfl
  · rw [ratLog2, if_neg h1]
    push_neg at h1
    set a := q.num.toNat with ha
    set b := q.den with hb
    have ha1 : 1 ≤ a := by
      rw [ha]
      omega
    set cdiv := (b + a - 1) / a with hcdiv
    set k := clog2Fuel cdiv cdiv with hk
    cases hk0 : k with
    | zero =>
        simp only [Nat.cast_zero, neg_zero, zero_add, zpow_one]
        linarith
    | succ k2 =>
        have hk2lt : 2 ^ k2 < cdiv := by
          by_contra hcon
          push_neg at hcon
          have := clog2Fuel_min cdiv cdiv k2 le_rfl hcon
          omega
        have hblt : a * 2 ^ k2 < b := by
          have hdm := Nat.div_add_mod (b + a - 1) a
          have hml : (b + a - 1) % a < a := Nat.mod_lt _ (by omega)
          have hcd : a * cdiv ≤ b + a - 1 := by
            rw [hcdiv]
            omega
          have h2 : a * (2 ^ k2 + 1) ≤ a * cdiv := by
            apply Nat.mul_le_mul_left
            omega
          have h3 : a * (2 ^ k2 + 1) = a * 2 ^ k2 + a := by ring
          omega
        have haQ : ((a : ℕ) : ℚ) = (q.num : ℚ) := by
          rw [ha]
          exact_mod_cast hnumQ
        have hgoal : q < 1 / (2 : ℚ) ^ (k2 : ℕ) := by
          rw [← hqeq, ← haQ]
          rw [div_lt_div_iff₀ hdenQ (by positivity)]
          have hcast : ((a * 2 ^ k2 : ℕ) : ℚ) < ((b : ℕ) : ℚ) := by exact_mod_cast hblt
          push_cast at hcast ⊢
          linarith
        have hexp : (-(((k2 + 1 : ℕ)) : ℤ) + 1) = -((k2 : ℕ) : ℤ) := by
          push_cast
          ring
        rw [hexp]
        calc q < 1 / (2 : ℚ) ^ (k2 : ℕ) := hgoal
          _ = (2 : ℚ) ^ (-((k2 : ℕ) : ℤ)) := by
              rw [zpow_neg, zpow_natCast, one_div]

theorem ratLog2_eq_of (q : ℚ) (e : ℤ) (hq : 0 < q)
    (h1 : (2 : ℚ) ^ e ≤ q) (h2 : q < (2 : ℚ) ^ (e + 1)) : ratLog2 q = e := by
  have hl := ratLog2_self_le q hq
  have hu := lt_ratLog2_succ q hq
  have hlt1 : (2 : ℚ) ^ (ratLog2 q) < (2 : ℚ) ^ (e + 1) := lt_of_le_of_lt hl h2
  have hlt2 : (2 : ℚ) ^ e < (2 : ℚ) ^ (ratLog2 q + 1) := lt_of_le_of_lt h1 hu
  have h3 : ratLog2 q < e + 1 := by
    by_contra hcon
    push_neg at hcon
    have := zpow_le_zpow_right₀ (show (1:ℚ) ≤ 2 by norm_num) hcon
    linarith
  have h4 : e < ratLog2 q + 1 := by
    by_contra hcon
    push_neg at hcon
    have := zpow_le_zpow_right₀ (show (1:ℚ) ≤ 2 by norm_num) hcon
    linarith
  omega

theorem roundFloat_eval (q : ℚ) (e M : ℤ) (hq : 0 < q)
    (h1 : (2 : ℚ) ^ e ≤ q) (h2 : q < (2 : ℚ) ^ (e + 1))
    (hM : pythonRound (q * (2 : ℚ) ^ ((52 : ℤ) - e)) = M) :
    roundFloat q = (M : ℚ) * (2 : ℚ) ^ (e - 52) := by
  rw [roundFloat_pos_def q hq, ratLog2_eq_of q e hq h1 h2, hM]


theorem log_le_52_of_lt (q : ℚ) (hq : 0 < q) (h : q < (2 : ℚ) ^ (53 : ℤ)) :
    ratLog2 q ≤ 52 := by
  by_contra hc
  push_neg at hc
  have h1 : (2 : ℚ) ^ (53 : ℤ) ≤ (2 : ℚ) ^ (ratLog2 q) :=
    zpow_le_zpow_right₀ (by norm_num) (by omega)
  have h2 := ratLog2_self_le q hq
  linarith

theorem log_lt_of_lt (q : ℚ) (z : ℤ) (hq : 0 < q) (h : q < (2 : ℚ) ^ z) :
    ratLog2 q < z := by
  by_contra hc
  push_neg at hc
  have h1 : (2 : ℚ) ^ z ≤ (2 : ℚ) ^ (ratLog2 q) :=
    zpow_le_zpow_right₀ (by norm_num) hc
  have h2 := ratLog2_self_le q hq
  linarith

theorem roundFloat_intCast (k : ℤ) (h0 : 0 ≤ k) (h : (k : ℚ) < (2 : ℚ) ^ (53 : ℤ)) :
    roundFloat (k : ℚ) = (k : ℚ) := by
  rcases eq_or_lt_of_le h0 with h0 | h0
  · rw [← h0]
    simp [roundFloat]
  · have hq : (0 : ℚ) < (k : ℚ) := by exact_mod_cast h0
    have hl : ratLog2 ((k : ℚ)) ≤ 52 := log_le_52_of_lt _ hq h
    exact le_antisymm (roundFloat_le_int _ k hq hl le_rfl)
      (int_le_roundFloat _ k hq hl le_rfl)

theorem pyFloat02_val : pyFloat02 = 3602879701896397 / 18014398509481984 := by
  rw [pyFloat02]
  have hM : pythonRound ((1 / 5 : ℚ) * (2 : ℚ) ^ ((52 : ℤ) - (-3))) =
      7205759403792794 := by
    have h55 : ((52 : ℤ) - (-3)) = (55 : ℤ) := by norm_num
    rw [h55]
    have hval : (1 / 5 : ℚ) * (2 : ℚ) ^ (55 : ℤ) = 36028797018963968 / 5 := by
      norm_num
    rw [hval]
    have hfl : ⌊(36028797018963968 / 5 : ℚ)⌋ = 7205759403792793 := by
      rw [Int.floor_eq_iff]
      constructor <;> norm_num
    rw [pythonRound_def, hfl]
    norm_num
  rw [roundFloat_eval (1 / 5 : ℚ) (-3) 7205759403792794 (by norm_num)
    (by norm_num) (by norm_num) hM]
  norm_num

theorem fsub_one_pyFloat02 :
    fsub 1 pyFloat02 = 3602879701896397 / 4503599627370496 := by
  rw [fsub, pyFloat02_val]
  have harg : (1 : ℚ) - 3602879701896397 / 18014398509481984 =
      14411518807585587 / 18014398509481984 := by norm_num
  rw [harg]
  have hM : pythonRound ((14411518807585587 / 18014398509481984 : ℚ) *
      (2 : ℚ) ^ ((52 : ℤ) - (-1))) = 7205759403792794 := by
    have h53 : ((52 : ℤ) - (-1)) = (53 : ℤ) := by norm_num
    rw [h53]
    have hval : (14411518807585587 / 18014398509481984 : ℚ) * (2 : ℚ) ^ (53 : ℤ) =
        14411518807585587 / 2 := by
      norm_num
    rw [hval]
    have hfl : ⌊(14411518807585587 / 2 : ℚ)⌋ = 7205759403792793 := by
      rw [Int.floor_eq_iff]
      constructor <;> norm_num
    rw [pythonRound_def, hfl]
    norm_num
  rw [roundFloat_eval _ (-1) 7205759403792794 (by norm_num) (by norm_num)
    (by norm_num) hM]
  norm_num

theorem split02_floor (n : ℕ) (h1 : 1 ≤ n) (h2 : n ≤ 2 ^ 50) :
    pyTrunc (fmul (roundFloat (n : ℚ)) (fsub 1 pyFloat02)) = ⌊(4 * n : ℚ) / 5⌋ := by
  have hc : fsub 1 pyFloat02 = 3602879701896397 / 4503599627370496 :=
    fsub_one_pyFloat02
  set c : ℚ := 3602879701896397 / 4503599627370496 with hcdef
  have hc45 : 4 / 5 + 1 / 22517998136852480 = c := by norm_num
  have hc1 : c < 1 := by norm_num
  have h2n : n ≤ 1125899906842624 := by
    have : (2 : ℕ) ^ 50 = 1125899906842624 := by norm_num
    omega
  have hn0 : (0 : ℚ) < (n : ℚ) := by exact_mod_cast h1
  have hnle : (n : ℚ) ≤ 1125899906842624 := by exact_mod_cast h2n
  have hrn : roundFloat (n : ℚ) = (n : ℚ) := by
    have hcast : (((n : ℤ) : ℚ)) = ((n : ℕ) : ℚ) := by push_cast; rfl
    have := roundFloat_intCast (n : ℤ) (by positivity) (by
      rw [hcast, show ((2 : ℚ) ^ (53 : ℤ)) = 9007199254740992 by norm_num]
      linarith)
    rw [hcast] at this
    exact this
  rw [hc, fmul, hrn]
  set x : ℚ := (n : ℚ) * c with hxdef
  have hx0 : 0 < x := by positivity
  have hxsplit : x = 4 * (n : ℚ) / 5 + (n : ℚ) * (1 / 22517998136852480) := by
    rw [hxdef, ← hc45]
    ring
  have hxlt50 : x < (2 : ℚ) ^ (50 : ℤ) := by
    rw [show ((2 : ℚ) ^ (50 : ℤ)) = 1125899906842624 by norm_num]
    calc x < (n : ℚ) * 1 := mul_lt_mul_of_pos_left hc1 hn0
      _ = (n : ℚ) := mul_one _
      _ ≤ 1125899906842624 := hnle
  have hxlt53 : x < (2 : ℚ) ^ (53 : ℤ) := by
    calc x < (2 : ℚ) ^ (50 : ℤ) := hxlt50
      _ ≤ (2 : ℚ) ^ (53 : ℤ) := zpow_le_zpow_right₀ (by norm_num) (by norm_num)
  have hl52 : ratLog2 x ≤ 52 := log_le_52_of_lt x hx0 hxlt53
  have hl49 : ratLog2 x ≤ 49 := by
    have := log_lt_of_lt x 50 hx0 hxlt50
    omega
  set K : ℤ := ⌊(4 * n : ℚ) / 5⌋ with hKdef
  have hK1 : (K : ℚ) ≤ (4 * n : ℚ) / 5 := Int.floor_le _
  have hK2 : (4 * n : ℚ) / 5 < (K : ℚ) + 1 := Int.lt_floor_add_one _
  have hKint2 : 4 * (n : ℤ) ≤ 5 * K + 4 := by
    have h5 : (4 : ℚ) * (n : ℚ) < 5 * (K : ℚ) + 5 := by linarith
    have : 4 * (n : ℤ) < 5 * K + 5 := by exact_mod_cast h5
    omega
  have hfrac : (4 * n : ℚ) / 5 ≤ (K : ℚ) + 4 / 5 := by
    have : (4 : ℚ) * (n : ℚ) ≤ 5 * (K : ℚ) + 4 := by exact_mod_cast hKint2
    linarith
  have htiny : (0 : ℚ) ≤ (n : ℚ) * (1 / 22517998136852480) := by positivity
  have hKx : (K : ℚ) ≤ x := by
    rw [hxsplit]
    linarith
  have hlow : (K : ℚ) ≤ roundFloat x := int_le_roundFloat x K hx0 hl52 hKx
  have hclose := roundFloat_close x hx0
  have hbnd : (2 : ℚ) ^ (ratLog2 x - 53) ≤ (2 : ℚ) ^ (-4 : ℤ) :=
    zpow_le_zpow_right₀ (by norm_num) (by omega)
  have hup : roundFloat x ≤ x + 1 / 16 := by
    rw [abs_le] at hclose
    have h4 : (2 : ℚ) ^ (-4 : ℤ) = 1 / 16 := by norm_num
    rw [h4] at hbnd
    linarith [hclose.2]
  have h20 : (n : ℚ) * (1 / 22517998136852480) ≤ 1 / 20 := by
    nlinarith
  have hxup : x ≤ (K : ℚ) + 4 / 5 + 1 / 20 := by
    rw [hxsplit]
    linarith
  have hhigh : roundFloat x < (K : ℚ) + 1 := by linarith
  have hK0 : (0 : ℤ) ≤ K := by
    rw [hKdef]
    apply Int.floor_nonneg.mpr
    positivity
  have hy0 : (0 : ℚ) ≤ roundFloat x := by
    have hKQ : (0 : ℚ) ≤ (K : ℚ) := by exact_mod_cast hK0
    linarith
  rw [pyTrunc, if_pos hy0]
  rw [Int.floor_eq_iff]
  constructor
  · exact hlow
  · linarith

/-! ## Helper lemmas: the Except monad and frame operations -/

theorem except_bind_ok {ε α β : Type} (a : α) (f : α → Except ε β) :
    (Except.ok a >>= f) = f a := rfl

theorem except_bind_error {ε α β : Type} (e : ε) (f : α → Except ε β) :
    ((Except.error e : Except ε α) >>= f) = Except.error e := rfl

theorem except_pure_bind {ε α β : Type} (a : α) (f : α → Except ε β) :
    ((pure a : Except ε α) >>= f) = f a := rfl

theorem except_bind_eq_ok {ε α β : Type} {x : Except ε α} {f : α → Except ε β}
    {b : β} : (x >>= f) = Except.ok b ↔ ∃ a, x = Except.ok a ∧ f a = Except.ok b := by
  cases x with
  | error e =>
      constructor
      · intro h
        exact absurd h (by simp [except_bind_error])
      · rintro ⟨a, ha, _⟩
        exact absurd ha (by simp)
  | ok a =>
      rw [except_bind_ok]
      constructor
      · intro h
        exact ⟨a, rfl, h⟩
      · rintro ⟨a2, ha, hf⟩
        cases ha
        exact hf

theorem range_filter_le_length (n k : ℕ) :
    ((List.range n).filter (fun i => decide (k ≤ i))).length = n - k := by
  induction n with
  | zero => simp
  | succ n ih =>
      rw [List.range_succ, List.filter_append, List.length_append, ih]
      by_cases h : k ≤ n
      · simp [h]
        omega
      · simp [h]
        omega

theorem create_features_some (ds cs : List ℤ) :
    create_features ds (some cs) =
      Except.ok { rows := (List.range ds.length).map (cfRow ds cs)
                  hasLags := decide (7 < ds.length) } := rfl

theorem create_features_none_of_le (ds : List ℤ) (h : ¬7 < ds.length) :
    create_features ds none =
      Except.ok { rows := (List.range ds.length).map (cfRowNoCount ds)
                  hasLags := false } := by
  rw [create_features]
  simp [h]

theorem create_features_none_of_lt (ds : List ℤ) (h : 7 < ds.length) :
    create_features ds none = Except.error (.keyError ("count")) := by
  rw [create_features]
  simp [h]

theorem dropna_create_length (ds cs : List ℤ) (hlen : cs.length = ds.length) :
    (dropna { rows := (List.range ds.length).map (cfRow ds cs)
              hasLags := decide (7 < ds.length) }).length =
      if 7 < ds.length then ds.length - 7 else ds.length := by
  by_cases h7 : 7 < ds.length
  · rw [if_pos h7, dropna]
    have hL : decide (7 < ds.length) = true := decide_eq_true h7
    simp only [hL, if_true]
    rw [List.filter_map, List.length_map]
    have hcong : ∀ i ∈ List.range ds.length,
        ((fun r : FeatRow => r.lag1.isSome && r.lag7.isSome) ∘ cfRow ds cs) i =
          decide (7 ≤ i) := by
      intro i hi
      rw [List.mem_range] at hi
      simp only [Function.comp_apply, cfRow]
      by_cases h7i : 7 ≤ i
      · rw [if_pos ⟨h7, by omega⟩, if_pos ⟨h7, h7i⟩]
        have hs1 : i - 1 < cs.length := by omega
        have hs7 : i - 7 < cs.length := by omega
        rw [List.get?_eq_getElem?, List.get?_eq_getElem?,
          List.getElem?_eq_getElem hs1, List.getElem?_eq_getElem hs7]
        simp [h7i]
      · rw [if_neg (show ¬(7 < ds.length ∧ 7 ≤ i) by omega)]
        simp [h7i]
    rw [List.filter_congr hcong, range_filter_le_length]
  · rw [if_neg h7, dropna]
    have hL : decide (7 < ds.length) = false := decide_eq_false h7
    simp only [hL, Bool.false_eq_true, if_false]
    rw [List.length_map, List.length_range]

theorem sk_fit_of_ne {fitf : List (List ℚ) → List ℚ → (List ℚ → ℚ)}
    {X : List (List ℚ)} (y : List ℚ) (h : X ≠ []) :
    sk_fit fitf X y = Except.ok (fitf X y) := by
  rw [sk_fit, if_neg]
  simpa using h

theorem sk_predict_of_ne {model : List ℚ → ℚ} {X : List (List ℚ)} (h : X ≠ []) :
    sk_predict model X = Except.ok (X.map model) := by
  rw [sk_predict, if_neg]
  simpa using h

theorem sk_fit_empty (fitf : List (List ℚ) → List ℚ → (List ℚ → ℚ)) (y : List ℚ) :
    sk_fit fitf [] y = Except.error (.valueError ("Found array with 0 samples")) := rfl

theorem sk_predict_empty (model : List ℚ → ℚ) :
    sk_predict model [] = Except.error (.valueError ("Found array with 0 samples")) := rfl

theorem selectCols_same (b : Bool) (rows : List FeatRow) :
    selectCols b b rows = Except.ok (rows.map (rowVector b)) := by
  cases b <;> rfl

theorem selectCols_lag_missing (rows : List FeatRow) :
    selectCols true false rows =
      Except.error (.keyError ("lag_1 and lag_7 not in index")) := rfl

theorem advanced_gate_error (lf rf : List (List ℚ) → List ℚ → (List ℚ → ℚ))
    (df : List SeriesRow) (h : ℤ) (mt : String) (hn : df.length < 17) :
    advanced_flight_forecast lf rf df h mt = Except.error (.valueError gateMsg) := by
  simp only [advanced_flight_forecast]
  rw [create_features_some, except_bind_ok]
  rw [if_pos]
  · rfl
  · rw [dropna_create_length _ _ (by simp [List.length_map]),
      List.length_map, length_sortByDate]
    split <;> omega

theorem split_parts {α : Type} (key : α → ℤ) (rows : List α)
    (h1 : 1 ≤ rows.length) (h2 : rows.length ≤ 2 ^ 50) :
    train_test_split_time key rows pyFloat02 =
      ((sortByDate key rows).take (⌊(4 * rows.length : ℚ) / 5⌋).toNat,
       (sortByDate key rows).drop (⌊(4 * rows.length : ℚ) / 5⌋).toNat) := by
  rw [train_test_split_time, length_sortByDate, split02_floor rows.length h1 h2]

theorem advanced_master (lf rf : List (List ℚ) → List ℚ → (List ℚ → ℚ))
    (df : List SeriesRow) (h : ℤ) (mt : String)
    (hn : 17 ≤ df.length) (hn2 : df.length ≤ 2 ^ 50) :
    advanced_flight_forecast lf rf df h mt =
      if h.toNat = 0 then
        Except.error (.attributeError
          ("Can only use .dt accessor with datetimelike values"))
      else if 7 < h.toNat then Except.error (.keyError ("count"))
      else Except.error (.keyError ("lag_1 and lag_7 not in index")) := by
  simp only [advanced_flight_forecast]
  rw [create_features_some]
  simp only [except_bind_ok]
  set dsL := (sortByDate (fun r : SeriesRow => r.date) df).map
    (fun r => r.date) with hdsL
  set csL := (sortByDate (fun r : SeriesRow => r.date) df).map
    (fun r => r.count) with hcsL
  have hds : dsL.length = df.length := by
    rw [hdsL, List.length_map, length_sortByDate]
  have hcs : csL.length = dsL.length := by
    rw [hdsL, hcsL, List.length_map, List.length_map]
  have hlenF : (dropna { rows := (List.range dsL.length).map (cfRow dsL csL),
                         hasLags := decide (7 < dsL.length) }).length =
      df.length - 7 := by
    rw [dropna_create_length dsL csL hcs, hds]
    rw [if_pos (by omega)]
  set F := dropna { rows := (List.range dsL.length).map (cfRow dsL csL),
                    hasLags := decide (7 < dsL.length) } with hFdef
  rw [if_neg (by rw [hlenF]; omega)]
  simp only [except_pure_bind]
  have hL : decide (7 < dsL.length) = true := by
    rw [hds]
    simp only [decide_eq_true_eq]
    omega
  rw [hL]
  rw [split_parts (fun r : FeatRow => r.date) F (by rw [hlenF]; omega)
    (by rw [hlenF]; omega)]
  rw [hlenF]
  set m : ℕ := df.length - 7 with hm
  set K : ℤ := ⌊(4 * m : ℚ) / 5⌋ with hK
  have hm10 : 10 ≤ m := by omega
  have hK8 : 8 ≤ K := by
    rw [hK]
    apply Int.le_floor.mpr
    have : (10 : ℚ) ≤ (m : ℚ) := by exact_mod_cast hm10
    push_cast
    linarith
  have hKm : K < (m : ℤ) := by
    rw [hK]
    apply Int.floor_lt.mpr
    have : (10 : ℚ) ≤ (m : ℚ) := by exact_mod_cast hm10
    push_cast
    linarith
  have hMlen : (sortByDate (fun r : FeatRow => r.date) F).length = m := by
    rw [length_sortByDate, hlenF]
  have htake : ((sortByDate (fun r : FeatRow => r.date) F).take K.toNat).map
      (rowVector true) ≠ [] := by
    apply List.ne_nil_of_length_pos
    rw [List.length_map, List.length_take, hMlen]
    omega
  have hdrop : ((sortByDate (fun r : FeatRow => r.date) F).drop K.toNat).map
      (rowVector true) ≠ [] := by
    apply List.ne_nil_of_length_pos
    rw [List.length_map, List.length_drop, hMlen]
    omega
  simp only [selectCols_same, except_bind_ok]
  rw [sk_fit_of_ne _ htake]
  simp only [except_bind_ok]
  rw [sk_fit_of_ne _ htake]
  simp only [except_bind_ok]
  rw [sk_predict_of_ne hdrop]
  simp only [except_bind_ok]
  rw [sk_predict_of_ne hdrop]
  simp only [except_bind_ok]
  by_cases hh0 : h.toNat = 0
  · rw [hh0]
    rfl
  · rw [if_neg (by
      simp only [List.isEmpty_iff, List.map_eq_nil_iff, List.range_eq_nil]
      exact hh0)]
    rw [if_neg hh0]
    by_cases hh7 : 7 < h.toNat
    · rw [create_features_none_of_lt _ (by
        rw [List.length_map, List.length_range]
        exact hh7)]
      rw [if_pos hh7]
      rfl
    · rw [create_features_none_of_le _ (by
        rw [List.length_map, List.length_range]
        exact hh7)]
      rw [if_neg hh7]
      simp only [except_bind_ok]
      rfl

theorem except_throw_bind {ε α β : Type} (e : ε) (f : α → Except ε β) :
    ((throw e : Except ε α) >>= f) = Except.error e := rfl

theorem advanced_never_ok (lf rf : List (List ℚ) → List ℚ → (List ℚ → ℚ))
    (df : List SeriesRow) (h : ℤ) (mt : String)
    (res : List ResultRow × AdvMetrics) :
    advanced_flight_forecast lf rf df h mt ≠ Except.ok res := by
  intro hok
  simp only [advanced_flight_forecast, create_features_some, except_bind_ok] at hok
  set dsL := (sortByDate (fun r : SeriesRow => r.date) df).map
    (fun r => r.date) with hdsL
  set csL := (sortByDate (fun r : SeriesRow => r.date) df).map
    (fun r => r.count) with hcsL
  split at hok
  · rw [except_throw_bind] at hok
    exact Except.noConfusion hok
  · rename_i hgate
    have hcs : csL.length = dsL.length := by
      rw [hdsL, hcsL, List.length_map, List.length_map]
    have h7 : 7 < dsL.length := by
      by_contra hc
      rw [dropna_create_length dsL csL hcs] at hgate
      rw [if_neg hc] at hgate
      omega
    simp only [except_pure_bind] at hok
    rw [selectCols_same] at hok
    simp only [except_bind_ok] at hok
    rw [except_bind_eq_ok] at hok
    obtain ⟨model1, hfit1, hok⟩ := hok
    rw [except_bind_eq_ok] at hok
    obtain ⟨model2, hfit2, hok⟩ := hok
    rw [selectCols_same] at hok
    simp only [except_bind_ok] at hok
    rw [except_bind_eq_ok] at hok
    obtain ⟨pred1, hpred1, hok⟩ := hok
    rw [except_bind_eq_ok] at hok
    obtain ⟨pred2, hpred2, hok⟩ := hok
    split at hok
    · rw [except_throw_bind] at hok
      exact Except.noConfusion hok
    · rename_i hfne
      rw [except_bind_eq_ok] at hok
      obtain ⟨fut, hfut, hok⟩ := hok
      by_cases hh7 : 7 < h.toNat
      · rw [create_features_none_of_lt _ (by
          rw [List.length_map, List.length_range]; exact hh7)] at hfut
        exact Except.noConfusion hfut
      · rw [create_features_none_of_le _ (by
          rw [List.length_map, List.length_range]; exact hh7)] at hfut
        injection hfut with hfut2
        subst hfut2
        rw [if_neg (by simp)] at hok
        simp only [except_pure_bind] at hok
        rw [decide_eq_true h7, selectCols_lag_missing] at hok
        rw [except_bind_error] at hok
        exact Except.noConfusion hok

theorem simple_ok_eval (fitf : List (List ℚ) → List ℚ → (List ℚ → ℚ))
    (df : List SeriesRow) (h : ℤ) (hne : df ≠ []) (hh : h.toNat ≠ 0) :
    simple_flight_forecast fitf df h =
      Except.ok (simple_result_spec fitf df h) := by
  simp only [simple_flight_forecast]
  have hsne : simple_X df ≠ [] := by
    apply List.ne_nil_of_length_pos
    rw [simple_X, simple_dayNumbers, List.length_map, List.length_map,
      length_sortByDate]
    exact List.length_pos.mpr hne
  rw [sk_fit_of_ne _ hsne]
  simp only [except_bind_ok]
  rw [sk_predict_of_ne (by
    apply List.ne_nil_of_length_pos
    rw [List.length_map, List.length_map, List.length_map, List.length_range]
    omega)]
  simp only [except_bind_ok]
  rw [simple_result_spec]
  congr 1
  congr 1
  apply List.ext_getElem
  · simp
  · intro i h1 h2
    simp [List.getElem_zip, Function.comp]

theorem simple_empty_error (fitf : List (List ℚ) → List ℚ → (List ℚ → ℚ))
    (h : ℤ) :
    simple_flight_forecast fitf [] h =
      Except.error (.valueError ("Found array with 0 samples")) := by
  simp only [simple_flight_forecast]
  rw [show simple_X [] = [] from rfl]
  rw [show sk_fit fitf [] (List.map (fun r => ((r.count : ℤ) : ℚ))
    (sortByDate (fun r : SeriesRow => r.date) [])) =
      Except.error (.valueError ("Found array with 0 samples")) from rfl]
  rfl

theorem simple_nonpos_error (fitf : List (List ℚ) → List ℚ → (List ℚ → ℚ))
    (df : List SeriesRow) (h : ℤ) (hne : df ≠ []) (hh : h.toNat = 0) :
    simple_flight_forecast fitf df h =
      Except.error (.valueError ("Found array with 0 samples")) := by
  simp only [simple_flight_forecast]
  have hsne : simple_X df ≠ [] := by
    apply List.ne_nil_of_length_pos
    rw [simple_X, simple_dayNumbers, List.length_map, List.length_map,
      length_sortByDate]
    exact List.length_pos.mpr hne
  rw [sk_fit_of_ne _ hsne]
  simp only [except_bind_ok]
  rw [hh]
  rfl

/-! ## Claim theorems -/

/-- C1: lag columns are added only when the series has more than 7 rows;
rows with a missing lag value are dropped; the pipeline raises
`InsufficientDataError` (the `ValueError` of line 66) when fewer than 10
rows remain after the exclusion, and does not raise it when at least 10
remain (a 5-row series raises it; an 18-row series passes the gate). -/
theorem c1_min_data_gate :
    (∀ ds cs : List ℤ, cs.length = ds.length →
      ∃ f, create_features ds (some cs) = Except.ok f ∧
        f.hasLags = decide (7 < ds.length) ∧
        (dropna f).length =
          (if 7 < ds.length then ds.length - 7 else ds.length)) ∧
    (∀ lf rf df (h : ℤ) mt,
      (if 7 < df.length then df.length - 7 else df.length) < 10 →
      advanced_flight_forecast lf rf df h mt =
        Except.error (.valueError gateMsg)) ∧
    (∀ lf rf df (h : ℤ) mt, 17 ≤ df.length → df.length ≤ 2 ^ 50 →
      advanced_flight_forecast lf rf df h mt ≠
        Except.error (.valueError gateMsg)) := by
  refine ⟨?_, ?_, ?_⟩
  · intro ds cs hlen
    exact ⟨_, create_features_some ds cs, rfl, dropna_create_length ds cs hlen⟩
  · intro lf rf df h mt hcond
    apply advanced_gate_error
    by_cases h7 : 7 < df.length
    · rw [if_pos h7] at hcond
      omega
    · rw [if_neg h7] at hcond
      omega
  · intro lf rf df h mt h17 h50 hcontra
    rw [advanced_master lf rf df h mt h17 h50] at hcontra
    split at hcontra
    · exact PyError.noConfusion (Except.error.inj hcontra)
    · split at hcontra
      · exact PyError.noConfusion (Except.error.inj hcontra)
      · exact PyError.noConfusion (Except.error.inj hcontra)

/-- Witness for C1: the 5-row prefix of the 18-row series raises the
gate error; the full 18-row series does not; a concrete 3-row frame gets
no lag columns and keeps its 3 rows. -/
theorem c1_min_data_gate_witness :
    ((if 7 < (series18.take 5).length then (series18.take 5).length - 7
      else (series18.take 5).length) < 10 ∧
     advanced_flight_forecast zeroFit zeroFit (series18.take 5) 30 "ensemble" =
       Except.error (.valueError gateMsg)) ∧
    (17 ≤ series18.length ∧ series18.length ≤ 2 ^ 50 ∧
     advanced_flight_forecast zeroFit zeroFit series18 30 "ensemble" ≠
       Except.error (.valueError gateMsg)) ∧
    (([(0 : ℤ), 1, 2] : List ℤ).length = ([(3 : ℤ), 1, 2] : List ℤ).length ∧
     ∃ f, create_features [(3 : ℤ), 1, 2] (some [(0 : ℤ), 1, 2]) = Except.ok f ∧
       f.hasLags = decide (7 < ([(3 : ℤ), 1, 2] : List ℤ).length) ∧
       (dropna f).length = (if 7 < ([(3 : ℤ), 1, 2] : List ℤ).length then
         ([(3 : ℤ), 1, 2] : List ℤ).length - 7
         else ([(3 : ℤ), 1, 2] : List ℤ).length)) := by
  refine ⟨⟨?_, ?_⟩, ⟨?_, ?_, ?_⟩, ?_, ?_⟩
  · simp [series18]
  · exact c1_min_data_gate.2.1 zeroFit zeroFit (series18.take 5) 30 "ensemble"
      (by simp [series18])
  · simp [series18]
  · simp [series18]
  · exact c1_min_data_gate.2.2 zeroFit zeroFit series18 30 "ensemble"
      (by simp [series18]) (by simp [series18])
  · rfl
  · exact c1_min_data_gate.1 [(3 : ℤ), 1, 2] [(0 : ℤ), 1, 2] rfl

/-- C2 (code bug): on the end-to-end scenario — 30 consecutive days with
`count = 10 + day_index`, horizon 7, policy `linear` — the advanced entry
point does not return a result: whatever the two fitted models are, it
raises `KeyError` at `future_df[feature_cols]` (the 7-row future frame
never receives the lag columns that the feature-column list contains). -/
theorem c2_linear_scenario_raises
    (lf rf : List (List ℚ) → List ℚ → (List ℚ → ℚ)) :
    advanced_flight_forecast lf rf series30 7 "linear" =
      Except.error (.keyError ("lag_1 and lag_7 not in index")) := by
  rw [advanced_master lf rf series30 7 "linear" (by simp [series30])
    (by simp [series30])]
  norm_num

/-- C3 (code bug): the recursive forecaster never produces a forecast-row
sequence at all: with lag features enabled (an 18-row history) and a
horizon past 7 days, `create_features` on the count-less future frame
raises `KeyError: count` before any lag chaining can happen, whatever the
fitted models are. -/
theorem c3_lag_chaining_raises
    (lf rf : List (List ℚ) → List ℚ → (List ℚ → ℚ)) :
    advanced_flight_forecast lf rf c3series 8 "ensemble" =
      Except.error (.keyError ("count")) := by
  rw [advanced_master lf rf c3series 8 "ensemble" (by simp [c3series])
    (by simp [c3series])]
  norm_num

/-- C4: given the two per-model prediction values of a row, the `average`
ensemble policy (the `else` branch of lines 163-173) yields
`round(max(0, (linear+ensemble)/2))` and the `linear` policy yields
`round(max(0, linear))` — the clamp and the Python banker rounding
commute. -/
theorem c4_combination_policy (lin rf : ℚ) :
    combinePrediction "ensemble" lin rf = pythonRound (max 0 ((lin + rf) / 2)) ∧
    combinePrediction "linear" lin rf = pythonRound (max 0 lin) := by
  constructor
  · rw [combinePrediction]
    rw [if_neg (by simp), if_neg (by simp)]
    exact max_zero_pythonRound _
  · rw [combinePrediction]
    rw [if_pos rfl]
    exact max_zero_pythonRound _

/-- C5: every forecast row either entry point emits has a non-negative
count: the simple path clamps `max(0, round(prediction))` per emitted
row; the advanced path emits nothing (it always raises, see
`advanced_never_ok`), so the property holds vacuously there; and the
clamp is applied after combination, not per model: combining the raw
pair (-4, 2) under the ensemble policy gives 0, while flooring each
model first would give 1. -/
theorem c5_nonneg :
    (∀ fitf df (h : ℤ) rows,
      simple_flight_forecast fitf df h = Except.ok rows →
      ∀ r ∈ rows, r.forecast = true → 0 ≤ r.count) ∧
    (∀ lf rf df (h : ℤ) mt res,
      advanced_flight_forecast lf rf df h mt = Except.ok res →
      ∀ r ∈ res.1, r.forecast = true → 0 ≤ r.count) ∧
    (combinePrediction "ensemble" (-4) 2 = 0 ∧
      pythonRound ((max 0 (-4 : ℚ) + max 0 2) / 2) = 1) := by
  refine ⟨?_, ?_, ?_, ?_⟩
  · intro fitf df h rows hok r hr hf
    by_cases hne : df = []
    · subst hne
      rw [simple_empty_error] at hok
      exact Except.noConfusion hok
    by_cases hh : h.toNat = 0
    · rw [simple_nonpos_error fitf df h hne hh] at hok
      exact Except.noConfusion hok
    rw [simple_ok_eval fitf df h hne hh] at hok
    injection hok with hok
    subst hok
    rw [simple_result_spec] at hr
    rcases List.mem_append.mp hr with hmem | hmem
    · obtain ⟨a, _, rfl⟩ := List.mem_map.mp hmem
      exact absurd hf (by simp)
    · obtain ⟨i, _, rfl⟩ := List.mem_map.mp hmem
      exact le_max_left 0 _
  · intro lf rf df h mt res hok
    exact absurd hok (advanced_never_ok lf rf df h mt res)
  · rw [combinePrediction, if_neg (by simp), if_neg (by simp)]
    have harg : ((-4 : ℚ) + 2) / 2 = ((-1 : ℤ) : ℚ) := by norm_num
    rw [harg, pythonRound_intCast]
    rfl
  · have harg : (max 0 (-4 : ℚ) + max 0 2) / 2 = ((1 : ℤ) : ℚ) := by
      rw [max_eq_left (by norm_num : (-4 : ℚ) ≤ 0),
        max_eq_right (by norm_num : (0 : ℚ) ≤ 2)]
      norm_num
    rw [harg, pythonRound_intCast]

/-- Witness for C5: a fitted model that predicts -5 everywhere still
yields a forecast row with count 0 on a one-row series. -/
theorem c5_nonneg_witness :
    simple_flight_forecast negFit [⟨0, 3⟩] 1 =
        Except.ok (simple_result_spec negFit [⟨0, 3⟩] 1) ∧
      (∀ r ∈ simple_result_spec negFit [⟨0, 3⟩] 1, r.forecast = true →
        0 ≤ r.count) := by
  have hok : simple_flight_forecast negFit [⟨0, 3⟩] 1 =
      Except.ok (simple_result_spec negFit [⟨0, 3⟩] 1) :=
    simple_ok_eval negFit [⟨0, 3⟩] 1 (by simp) (by decide)
  exact ⟨hok, fun r hr hf =>
    c5_nonneg.1 negFit [⟨0, 3⟩] 1 (simple_result_spec negFit [⟨0, 3⟩] 1)
      hok r hr hf⟩

theorem fsub_one_tiny : fsub 1 ((2 : ℚ) ^ (-60 : ℤ)) = 1 := by
  rw [fsub]
  have harg : (1 : ℚ) - (2 : ℚ) ^ (-60 : ℤ) =
      1152921504606846975 / 1152921504606846976 := by norm_num
  rw [harg]
  have hM : pythonRound ((1152921504606846975 / 1152921504606846976 : ℚ) *
      (2 : ℚ) ^ ((52 : ℤ) - (-1))) = 9007199254740992 := by
    have h53 : ((52 : ℤ) - (-1)) = (53 : ℤ) := by norm_num
    rw [h53]
    have hval : (1152921504606846975 / 1152921504606846976 : ℚ) *
        (2 : ℚ) ^ (53 : ℤ) = 1152921504606846975 / 128 := by norm_num
    rw [hval]
    have hfl : ⌊(1152921504606846975 / 128 : ℚ)⌋ = 9007199254740991 := by
      rw [Int.floor_eq_iff]
      constructor <;> norm_num
    rw [pythonRound_def, hfl]
    norm_num
  rw [roundFloat_eval _ (-1) 9007199254740992 (by norm_num) (by norm_num)
    (by norm_num) hM]
  norm_num

theorem roundFloat_ten : roundFloat (10 : ℚ) = 10 := by
  have := roundFloat_intCast 10 (by norm_num) (by
    rw [show ((2 : ℚ) ^ (53 : ℤ)) = 9007199254740992 by norm_num]
    norm_num)
  push_cast at this
  exact this

/-- C6 (counterexample): on a date-sorted sequence of 10 feature rows and
`test_fraction = 2 ^ (-60)` (a float in `(0,1)`), the splitter returns all
10 rows as `train`, while the first `⌊n * (1 - test_fraction)⌋ = 9` rows
were claimed. -/
theorem c6_counterexample :
    (train_test_split_time (fun r : FeatRow => r.date) c6featRows
        ((2 : ℚ) ^ (-60 : ℤ))).1 ≠
      c6featRows.take
        (⌊(c6featRows.length : ℚ) * (1 - (2 : ℚ) ^ (-60 : ℤ))⌋).toNat := by
  have hc6 : c6featRows.length = 10 := by decide
  have hti : pyTrunc (fmul (roundFloat ((10 : ℚ)))
      (fsub 1 ((2 : ℚ) ^ (-60 : ℤ)))) = 10 := by
    rw [fsub_one_tiny, fmul]
    rw [roundFloat_ten, mul_one, roundFloat_ten, pyTrunc,
      if_pos (by norm_num)]
    rw [show ((10 : ℚ)) = (((10 : ℤ)) : ℚ) by push_cast; rfl]
    rw [Int.floor_intCast]
  have hfl9 : ⌊((10 : ℚ)) * (1 - (2 : ℚ) ^ (-60 : ℤ))⌋ = 9 := by
    rw [Int.floor_eq_iff]
    constructor <;> norm_num
  intro heq
  have hl := congrArg List.length heq
  simp only [train_test_split_time, length_sortByDate, hc6,
    List.length_take, Nat.cast_ofNat] at hl
  rw [hti] at hl
  rw [hfl9] at hl
  simp at hl

/-- C6 (amended): on a date-sorted feature-row sequence the splitter
returns `train` = the first `int(n * (1 - test_fraction))` rows — the
Python expression evaluated in IEEE double arithmetic and truncated
toward zero — and `test` = the remaining rows, so train ++ test is the
input in order; for the test fraction 0.2 that the pipeline uses, the
split point equals the exact `⌊0.8 * n⌋` whenever `n ≤ 2 ^ 50`. -/
theorem c6_split_amended {α : Type} (key : α → ℤ) (rows : List α) (f : ℚ)
    (hs : rows.Chain' (fun a b => key a ≤ key b)) :
    (train_test_split_time key rows f).1 =
        rows.take (pyTrunc (fmul (roundFloat (rows.length : ℚ))
          (fsub 1 f))).toNat ∧
      (train_test_split_time key rows f).2 =
        rows.drop (pyTrunc (fmul (roundFloat (rows.length : ℚ))
          (fsub 1 f))).toNat ∧
      (train_test_split_time key rows f).1 ++
        (train_test_split_time key rows f).2 = rows ∧
      (f = pyFloat02 → 1 ≤ rows.length → rows.length ≤ 2 ^ 50 →
        (train_test_split_time key rows f).1 =
          rows.take (⌊(4 * rows.length : ℚ) / 5⌋).toNat) := by
  have hsort : sortByDate key rows = rows := sortByDate_eq_self key rows hs
  refine ⟨?_, ?_, ?_, ?_⟩
  · rw [train_test_split_time, hsort]
  · rw [train_test_split_time, hsort]
  · rw [train_test_split_time, hsort]
    exact List.take_append_drop _ rows
  · intro hf h1 h2
    rw [train_test_split_time, hsort, hf, split02_floor rows.length h1 h2]

/-- Witness for C6 (amended): the ten concrete feature rows, split with
the default fraction. -/
theorem c6_split_amended_witness :
    c6featRows.Chain' (fun a b => a.date ≤ b.date) ∧
      ((train_test_split_time (fun r : FeatRow => r.date) c6featRows
          pyFloat02).1 =
        c6featRows.take (pyTrunc (fmul (roundFloat (c6featRows.length : ℚ))
          (fsub 1 pyFloat02))).toNat ∧
      (train_test_split_time (fun r : FeatRow => r.date) c6featRows
          pyFloat02).2 =
        c6featRows.drop (pyTrunc (fmul (roundFloat (c6featRows.length : ℚ))
          (fsub 1 pyFloat02))).toNat ∧
      (train_test_split_time (fun r : FeatRow => r.date) c6featRows
          pyFloat02).1 ++
        (train_test_split_time (fun r : FeatRow => r.date) c6featRows
          pyFloat02).2 = c6featRows ∧
      (pyFloat02 = pyFloat02 → 1 ≤ c6featRows.length →
        c6featRows.length ≤ 2 ^ 50 →
        (train_test_split_time (fun r : FeatRow => r.date) c6featRows
            pyFloat02).1 =
          c6featRows.take (⌊(4 * c6featRows.length : ℚ) / 5⌋).toNat))  := by
  have hdates : c6featRows.map (fun r : FeatRow => r.date) =
      [19800, 19801, 19802, 19803, 19804, 19805, 19806, 19807, 19808,
       19809] := by decide
  have hch : List.Chain' (fun (a b : FeatRow) => a.date ≤ b.date)
      c6featRows := by
    apply (List.chain'_map (fun r : FeatRow => r.date)).mp
    rw [hdates]
    norm_num [List.chain'_cons]
  exact ⟨hch, c6_split_amended (fun r : FeatRow => r.date) c6featRows
    pyFloat02 hch⟩

/-- C7: for a horizon of at most 0 days, both entry points raise rather
than returning a zero-forecast-row result: the advanced path never
returns at all, and the simple path fails inside `model.predict` on the
empty future frame (sklearn rejects an empty sample matrix). -/
theorem c7_nonpositive_horizon :
    (∀ lf rf df mt (h : ℤ), h ≤ 0 →
      ∃ e, advanced_flight_forecast lf rf df h mt = Except.error e) ∧
    (∀ fitf df (h : ℤ), h ≤ 0 →
      ∃ e, simple_flight_forecast fitf df h = Except.error e) := by
  constructor
  · intro lf rf df mt h _
    cases hx : advanced_flight_forecast lf rf df h mt with
    | error e => exact ⟨e, rfl⟩
    | ok res => exact absurd hx (advanced_never_ok lf rf df h mt res)
  · intro fitf df h hh
    have htn : h.toNat = 0 := Int.toNat_of_nonpos hh
    cases hdf : df with
    | nil => exact ⟨_, simple_empty_error fitf h⟩
    | cons a l => exact ⟨_, simple_nonpos_error fitf (a :: l) h (by simp) htn⟩

/-- Witness for C7: horizon 0 on the concrete 18-row series. -/
theorem c7_nonpositive_horizon_witness :
    ((0 : ℤ) ≤ 0) ∧
      (∃ e, advanced_flight_forecast zeroFit zeroFit series18 0 "linear" =
        Except.error e) ∧
      (∃ e, simple_flight_forecast zeroFit series18 0 =
        Except.error e) :=
  ⟨le_refl 0,
   c7_nonpositive_horizon.1 zeroFit zeroFit series18 "linear" 0 (le_refl 0),
   c7_nonpositive_horizon.2 zeroFit series18 0 (le_refl 0)⟩

/-- C10: the simple forecaster has no minimum-data gate: every non-empty
series with a positive horizon yields a combined result (historical plus
forecast rows, one per horizon day) without any `InsufficientDataError`. -/
theorem c10_no_min_gate (fitf : List (List ℚ) → List ℚ → (List ℚ → ℚ))
    (df : List SeriesRow) (h : ℤ) (hne : df ≠ []) (hh : 1 ≤ h) :
    ∃ rows, simple_flight_forecast fitf df h = Except.ok rows ∧
      rows.length = df.length + h.toNat ∧
      ∃ r ∈ rows, r.forecast = true := by
  have htn : h.toNat ≠ 0 := by omega
  refine ⟨simple_result_spec fitf df h,
    simple_ok_eval fitf df h hne htn, ?_, ?_⟩
  · rw [simple_result_spec]
    simp only [List.length_append, List.length_map, length_sortByDate,
      List.length_range]
  · rw [simple_result_spec]
    refine ⟨_, List.mem_append_right _ (List.mem_map.mpr
      ⟨0, List.mem_range.mpr (by omega), rfl⟩), rfl⟩

/-- Witness for C10: a two-row series with horizon 3. -/
theorem c10_no_min_gate_witness :
    (([⟨0, 1⟩, ⟨1, 2⟩] : List SeriesRow) ≠ []) ∧ ((1 : ℤ) ≤ 3) ∧
      ∃ rows, simple_flight_forecast zeroFit [⟨0, 1⟩, ⟨1, 2⟩] 3 =
          Except.ok rows ∧
        rows.length = ([⟨0, 1⟩, ⟨1, 2⟩] : List SeriesRow).length + (3 : ℤ).toNat ∧
        ∃ r ∈ rows, r.forecast = true :=
  ⟨by simp, by norm_num,
   c10_no_min_gate zeroFit [⟨0, 1⟩, ⟨1, 2⟩] 3 (by simp) (by norm_num)⟩

/-- C8 (counterexample): the simple forecaster does not fit on the
section 4.1 calendar features — its design matrix for a concrete 3-day
series has one column (`day_number`), not the six calendar columns. -/
theorem c8_counterexample : simple_X c8df ≠ spec_section41_featureMatrix c8df := by
  intro heq
  have hh := congrArg (fun l => l.head?.map List.length) heq
  simp only [simple_X, spec_section41_featureMatrix, simple_dayNumbers,
    List.head?_map] at hh
  simp [c8df, sortByDate, insertByDate] at hh

/-- C8 (amended): the simple variant is a lag-free single-model design,
but on the single `day_number` feature, not the calendar features: every
design-matrix row has exactly one column, and the forecast counts are a
single batch application of the one fitted model to the future day
numbers — each forecast count a function of the fitted model and the
calendar alone, never of a previously emitted prediction. -/
theorem c8_simple_variant (fitf : List (List ℚ) → List ℚ → (List ℚ → ℚ))
    (df : List SeriesRow) (h : ℤ) (hne : df ≠ []) (hh : h.toNat ≠ 0)
    (rows : List SimpleRow)
    (hok : simple_flight_forecast fitf df h = Except.ok rows) :
    (rows.drop df.length).map (fun r => r.count) =
      spec_simpleForecastCounts fitf df h ∧
    ∀ v ∈ simple_X df, v.length = 1 := by
  constructor
  · rw [simple_ok_eval fitf df h hne hh] at hok
    injection hok with hok
    subst hok
    rw [simple_result_spec, spec_simpleForecastCounts]
    have hl : ((sortByDate (fun r : SeriesRow => r.date) df).map (fun r =>
        ({ date := r.date, count := r.count,
           day_number := r.date - colMin ((sortByDate
             (fun r : SeriesRow => r.date) df).map (fun r => r.date)),
           forecast := false } : SimpleRow))).length = df.length := by
      rw [List.length_map, length_sortByDate]
    rw [← hl, List.drop_left, List.map_map]
    rfl
  · intro v hv
    rw [simple_X] at hv
    obtain ⟨d, _, rfl⟩ := List.mem_map.mp hv
    rfl

/-- Witness for C8 (amended): the concrete 3-day series with horizon 2. -/
theorem c8_simple_variant_witness :
    (c8df ≠ []) ∧ ((2 : ℤ).toNat ≠ 0) ∧
      ((simple_result_spec zeroFit c8df 2).drop c8df.length).map
          (fun r => r.count) = spec_simpleForecastCounts zeroFit c8df 2 ∧
      ∀ v ∈ simple_X c8df, v.length = 1 := by
  refine ⟨by simp [c8df], by decide, ?_⟩
  exact c8_simple_variant zeroFit c8df 2 (by simp [c8df]) (by decide)
    (simple_result_spec zeroFit c8df 2)
    (simple_ok_eval zeroFit c8df 2 (by simp [c8df]) (by decide))

/-- C9 (counterexample): a series with a calendar gap (dates 0, 1, 3)
flows through the simple entry point into a ForecastResult whose
historical prefix keeps the gap, so adjacent rows do not all differ by
one day. -/
theorem c9_counterexample :
    simple_flight_forecast zeroFit c9df 1 =
        Except.ok (simple_result_spec zeroFit c9df 1) ∧
      ¬ (simple_result_spec zeroFit c9df 1).Chain'
          (fun a b => b.date = a.date + 1) := by
  refine ⟨simple_ok_eval zeroFit c9df 1 (by simp [c9df]) (by decide), ?_⟩
  intro hch
  have hdates : (simple_result_spec zeroFit c9df 1).map
      (fun r : SimpleRow => r.date) = [0, 1, 3, 4] := by
    rw [simple_result_spec]
    norm_num [c9df, sortByDate, insertByDate, colMax, colMin, List.range_succ]
  have hmapped := (List.chain'_map (R := fun (x y : ℤ) => y = x + 1)
    (fun r : SimpleRow => r.date)).mpr hch
  rw [hdates] at hmapped
  norm_num [List.chain'_cons] at hmapped

/-- C9 (amended): in a simple-path ForecastResult the forecast-tagged
suffix is contiguous (adjacent forecast dates differ by one day), the
first forecast row lands one day after the last historical date, and the
whole result is contiguous precisely when the input series itself has no
gaps; historical gaps are preserved (see the counterexample). -/
theorem c9_contiguity (fitf : List (List ℚ) → List ℚ → (List ℚ → ℚ))
    (df : List SeriesRow) (h : ℤ)
    (hs : df.Chain' (fun a b => a.date ≤ b.date)) (hne : df ≠ [])
    (hh : h.toNat ≠ 0) (rows : List SimpleRow)
    (hok : simple_flight_forecast fitf df h = Except.ok rows) :
    (rows.drop df.length).Chain' (fun a b => b.date = a.date + 1) ∧
      (∀ fr ∈ (rows.drop df.length).head?, fr.forecast = true ∧
        fr.date = (df.getLast hne).date + 1) ∧
      (df.Chain' (fun a b => b.date = a.date + 1) →
        rows.Chain' (fun a b => b.date = a.date + 1)) := by
  rw [simple_ok_eval fitf df h hne hh] at hok
  injection hok with hok
  subst hok
  rw [simple_result_spec]
  have hsort : sortByDate (fun r : SeriesRow => r.date) df = df :=
    sortByDate_eq_self _ _ hs
  rw [hsort]
  have hlh : (df.map (fun r =>
      ({ date := r.date, count := r.count,
         day_number := r.date - colMin (df.map (fun r => r.date)),
         forecast := false } : SimpleRow))).length = df.length :=
    List.length_map _ _
  rw [← hlh, List.drop_left]
  have hmapne : df.map (fun r : SeriesRow => r.date) ≠ [] := by
    simp [hne]
  have hchain : (df.map (fun r : SeriesRow => r.date)).Chain' (· ≤ ·) :=
    (List.chain'_map (R := fun (x y : ℤ) => x ≤ y) _).mpr hs
  have hlast : colMax (df.map (fun r : SeriesRow => r.date)) =
      (df.getLast hne).date := by
    rw [chain_colMax _ hchain hmapne, List.getLast_map]
  have hfutChain : ((List.range h.toNat).map (fun (i : ℕ) =>
      ({ date := colMax (df.map (fun r : SeriesRow => r.date)) + (i : ℤ) + 1,
         count := max 0 (pythonRound ((fitf (simple_X df)
           (df.map (fun r => (r.count : ℚ))))
             [((colMax (df.map (fun r : SeriesRow => r.date)) + (i : ℤ) + 1 -
               colMin (df.map (fun r : SeriesRow => r.date)) : ℤ) : ℚ)])),
         day_number := colMax (df.map (fun r : SeriesRow => r.date)) +
           (i : ℤ) + 1 - colMin (df.map (fun r : SeriesRow => r.date)),
         forecast := true } : SimpleRow))).Chain'
      (fun a b => b.date = a.date + 1) := by
    rw [List.chain'_iff_get]
    intro i hi
    simp only [List.get_eq_getElem, List.getElem_map, List.getElem_range]
    push_cast
    ring
  refine ⟨hfutChain, ?_, ?_⟩
  · intro fr hfr
    rw [List.head?_eq_getElem?, List.getElem?_map,
      List.getElem?_range (by omega : 0 < h.toNat)] at hfr
    simp only [Option.map_some', Option.mem_def, Option.some.injEq] at hfr
    subst hfr
    refine ⟨rfl, ?_⟩
    show colMax (df.map (fun r : SeriesRow => r.date)) + ((0 : ℕ) : ℤ) + 1 =
      (df.getLast hne).date + 1
    rw [hlast]
    norm_num
  · intro hdf
    apply List.chain'_append.mpr
    refine ⟨?_, hfutChain, ?_⟩
    · exact (List.chain'_map
        (R := fun (a b : SimpleRow) => b.date = a.date + 1) _).mpr hdf
    · intro x hx y hy
      rw [List.getLast?_map, List.getLast?_eq_getLast df hne] at hx
      simp only [Option.map_some', Option.mem_def, Option.some.injEq] at hx
      rw [List.head?_eq_getElem?, List.getElem?_map,
        List.getElem?_range (by omega : 0 < h.toNat)] at hy
      simp only [Option.map_some', Option.mem_def, Option.some.injEq] at hy
      subst hx
      subst hy
      show colMax (df.map (fun r : SeriesRow => r.date)) + ((0 : ℕ) : ℤ) + 1 =
        (df.getLast hne).date + 1
      rw [hlast]
      norm_num

/-- Witness for C9 (amended): a gap-free two-day series with horizon 2. -/
theorem c9_contiguity_witness :
    (([⟨5, 2⟩, ⟨6, 3⟩] : List SeriesRow) ≠ []) ∧ ((2 : ℤ).toNat ≠ 0) ∧
      (((simple_result_spec zeroFit [⟨5, 2⟩, ⟨6, 3⟩] 2).drop
          ([⟨5, 2⟩, ⟨6, 3⟩] : List SeriesRow).length).Chain'
        (fun a b => b.date = a.date + 1) ∧
      (∀ fr ∈ ((simple_result_spec zeroFit [⟨5, 2⟩, ⟨6, 3⟩] 2).drop
          ([⟨5, 2⟩, ⟨6, 3⟩] : List SeriesRow).length).head?,
        fr.forecast = true ∧ fr.date = ((([⟨5, 2⟩, ⟨6, 3⟩] :
          List SeriesRow)).getLast (by simp)).date + 1) ∧
      (([⟨5, 2⟩, ⟨6, 3⟩] : List SeriesRow).Chain'
          (fun a b => b.date = a.date + 1) →
        (simple_result_spec zeroFit [⟨5, 2⟩, ⟨6, 3⟩] 2).Chain'
          (fun a b => b.date = a.date + 1))) := by
  have hs : ([⟨5, 2⟩, ⟨6, 3⟩] : List SeriesRow).Chain'
      (fun a b => a.date ≤ b.date) := by
    norm_num [List.chain'_cons]
  refine ⟨by simp, by decide, ?_⟩
  exact c9_contiguity zeroFit [⟨5, 2⟩, ⟨6, 3⟩] 2 hs (by simp) (by decide)
    (simple_result_spec zeroFit [⟨5, 2⟩, ⟨6, 3⟩] 2)
    (simple_ok_eval zeroFit [⟨5, 2⟩, ⟨6, 3⟩] 2 (by simp) (by decide))
